import Mathlib

/-!
# Verification of the qemu-compose orchestrator specification

Shallow embedding of the core functions of the qemu-compose source
(`config.go`, `image.go`, `network.go`, `vm.go`, `volume.go`, and the
command layer) together with proofs settling the specification claims.

Go strings are modelled as Lean `String` where only character content
matters, and as `List Nat` (byte lists) where the source manipulates
byte lengths (interface-name truncation).  File-system and process
effects are modelled by explicit state passing; fallible operations
return `Except`.
-/

namespace QemuCompose

/-! ## String helpers mirroring the Go standard library -/

/-- `strings.Split(s, sep)` for a single-character separator, on char lists:
splits at every occurrence of `c`; the result always has at least one part. -/
def splitOnCharAux (c : Char) : List Char → List Char → List (List Char)
  | [], acc => [acc.reverse]
  | x :: xs, acc =>
    if x = c then acc.reverse :: splitOnCharAux c xs []
    else splitOnCharAux c xs (x :: acc)

def splitOnChar (c : Char) (l : List Char) : List (List Char) :=
  splitOnCharAux c l []

/-- `strings.HasPrefix` / Go prefix test, as a Bool on strings. -/
def strStartsWith (s pre : String) : Bool :=
  pre.data.isPrefixOf s.data

/-- The last `n` characters of a string (used to read a fixed-width MAC
address back out of a constructed QEMU argument). -/
def takeRightStr (s : String) (n : Nat) : String :=
  ⟨s.data.drop (s.data.length - n)⟩

/-- One lowercase hex digit, as produced by Go's `%x` verb (value < 16). -/
def hexDigit (n : Nat) : Char :=
  if n < 10 then Char.ofNat (48 + n) else Char.ofNat (87 + n)

/-- Two-digit lowercase hex rendering of a byte, Go's `%02x` for values < 256. -/
def hex2 (n : Nat) : String :=
  ⟨[hexDigit (n / 16), hexDigit (n % 16)]⟩

/-! ## UTF-8 encoding (Go strings are UTF-8 byte sequences) -/

/-- Standard UTF-8 encoding of a single code point, as byte values. -/
def utf8EncodeCharNat (n : Nat) : List Nat :=
  if n < 0x80 then [n]
  else if n < 0x800 then [0xC0 + n / 64, 0x80 + n % 64]
  else if n < 0x10000 then [0xE0 + n / 4096, 0x80 + n / 64 % 64, 0x80 + n % 64]
  else [0xF0 + n / 262144, 0x80 + n / 4096 % 64, 0x80 + n / 64 % 64, 0x80 + n % 64]

/-- The UTF-8 bytes of a string, the form in which Go hashes strings. -/
def utf8Bytes (s : String) : List Nat :=
  s.data.flatMap (fun c => utf8EncodeCharNat c.toNat)

/-! ## MD5 (crypto/md5), executable over byte lists

Faithful implementation of the MD5 digest: 512-bit blocks, little-endian
words, the standard sine-derived constant table, producing 16 bytes. -/

/-- Truncate to a 32-bit word. -/
def w32 (n : Nat) : Nat := n % 4294967296

/-- 32-bit left rotation (input assumed < 2^32). -/
def rotl32 (x s : Nat) : Nat := w32 (x * 2 ^ s + x / 2 ^ (32 - s))

/-- Bitwise complement within 32 bits (input assumed < 2^32). -/
def not32 (x : Nat) : Nat := 4294967295 - x

/-- The 64 MD5 sine constants `floor(2^32 * |sin(i+1)|)`. -/
def md5K : List Nat :=
  [0xd76aa478, 0xe8c7b756, 0x242070db, 0xc1bdceee,
   0xf57c0faf, 0x4787c62a, 0xa8304613, 0xfd469501,
   0x698098d8, 0x8b44f7af, 0xffff5bb1, 0x895cd7be,
   0x6b901122, 0xfd987193, 0xa679438e, 0x49b40821,
   0xf61e2562, 0xc040b340, 0x265e5a51, 0xe9b6c7aa,
   0xd62f105d, 0x02441453, 0xd8a1e681, 0xe7d3fbc8,
   0x21e1cde6, 0xc33707d6, 0xf4d50d87, 0x455a14ed,
   0xa9e3e905, 0xfcefa3f8, 0x676f02d9, 0x8d2a4c8a,
   0xfffa3942, 0x8771f681, 0x6d9d6122, 0xfde5380c,
   0xa4beea44, 0x4bdecfa9, 0xf6bb4b60, 0xbebfbc70,
   0x289b7ec6, 0xeaa127fa, 0xd4ef3085, 0x04881d05,
   0xd9d4d039, 0xe6db99e5, 0x1fa27cf8, 0xc4ac5665,
   0xf4292244, 0x432aff97, 0xab9423a7, 0xfc93a039,
   0x655b59c3, 0x8f0ccc92, 0xffeff47d, 0x85845dd1,
   0x6fa87e4f, 0xfe2ce6e0, 0xa3014314, 0x4e0811a1,
   0xf7537e82, 0xbd3af235, 0x2ad7d2bb, 0xeb86d391]

/-- Per-round left-rotation amounts. -/
def md5S : List Nat :=
  [7, 12, 17, 22, 7, 12, 17, 22, 7, 12, 17, 22, 7, 12, 17, 22,
   5, 9, 14, 20, 5, 9, 14, 20, 5, 9, 14, 20, 5, 9, 14, 20,
   4, 11, 16, 23, 4, 11, 16, 23, 4, 11, 16, 23, 4, 11, 16, 23,
   6, 10, 15, 21, 6, 10, 15, 21, 6, 10, 15, 21, 6, 10, 15, 21]

/-- A 64-byte block as 16 little-endian 32-bit words. -/
def bytesToWords : List Nat → List Nat
  | b0 :: b1 :: b2 :: b3 :: rest =>
    (b0 + 256 * (b1 + 256 * (b2 + 256 * b3))) :: bytesToWords rest
  | _ => []

/-- One MD5 operation (round `i` of 64) on the running state. -/
def md5Step (m : List Nat) (i : Nat) :
    Nat × Nat × Nat × Nat → Nat × Nat × Nat × Nat
  | (a, b, c, d) =>
    let f :=
      if i < 16 then (b &&& c) ||| (not32 b &&& d)
      else if i < 32 then (d &&& b) ||| (not32 d &&& c)
      else if i < 48 then b ^^^ c ^^^ d
      else c ^^^ (b ||| not32 d)
    let g :=
      if i < 16 then i
      else if i < 32 then (5 * i + 1) % 16
      else if i < 48 then (3 * i + 5) % 16
      else (7 * i) % 16
    let sum := w32 (a + f + md5K.getD i 0 + m.getD g 0)
    (d, w32 (b + rotl32 sum (md5S.getD i 0)), b, c)

/-- Process one 64-byte chunk. -/
def md5Chunk (st : Nat × Nat × Nat × Nat) (chunk : List Nat) :
    Nat × Nat × Nat × Nat :=
  let m := bytesToWords chunk
  let r := (List.range 64).foldl (fun s i => md5Step m i s) st
  match st, r with
  | (a0, b0, c0, d0), (a, b, c, d) =>
    (w32 (a0 + a), w32 (b0 + b), w32 (c0 + c), w32 (d0 + d))

/-- Split into successive 64-byte chunks. -/
def chunks64 : List Nat → List (List Nat)
  | [] => []
  | x :: xs => ((x :: xs).take 64) :: chunks64 ((x :: xs).drop 64)
termination_by l => l.length
decreasing_by
  simp only [List.length_drop, List.length_cons]
  omega

/-- MD5 padding: `0x80`, zeros to 56 mod 64, 8-byte little-endian bit length. -/
def md5Pad (msg : List Nat) : List Nat :=
  let bitLen := 8 * msg.length
  let zeros := (119 - msg.length % 64) % 64
  msg ++ [0x80] ++ List.replicate zeros 0 ++
    (List.range 8).map (fun i => bitLen / 2 ^ (8 * i) % 256)

/-- Little-endian byte serialization of a 32-bit word. -/
def wordLEBytes (w : Nat) : List Nat :=
  [w % 256, w / 256 % 256, w / 65536 % 256, w / 16777216 % 256]

/-- The final (A, B, C, D) state after processing all chunks. -/
def md5Digest (msg : List Nat) : Nat × Nat × Nat × Nat :=
  (chunks64 (md5Pad msg)).foldl md5Chunk
    (0x67452301, 0xefcdab89, 0x98badcfe, 0x10325476)

/-- `md5.Sum`: the 16-byte MD5 digest of a byte sequence. -/
def md5Bytes (msg : List Nat) : List Nat :=
  wordLEBytes (md5Digest msg).1 ++ wordLEBytes (md5Digest msg).2.1 ++
    wordLEBytes (md5Digest msg).2.2.1 ++ wordLEBytes (md5Digest msg).2.2.2

/-- The lowercase-hex rendering `fmt.Sprintf("%x", digest)` as byte values
(two hex digits per byte, leading zeros kept). -/
def hexBytesOf (bytes : List Nat) : List Nat :=
  bytes.flatMap (fun b =>
    [(if b / 16 % 16 < 10 then 48 + b / 16 % 16 else 87 + b / 16 % 16),
     (if b % 16 < 10 then 48 + b % 16 else 87 + b % 16)])

/-! ## Configuration model (config.go)

Go struct zero values are the Lean field defaults: missing YAML keys
leave `""` for strings and `0` for ints, exactly as `yaml.Unmarshal`
leaves Go zero values. -/

structure SSHConfig where
  Port : Nat := 0
deriving Repr, DecidableEq

structure DiskConfig where
  Size : String := ""
deriving Repr, DecidableEq

structure VolumeMount where
  Source : String := ""
  Target : String := ""
  ReadOnly : Bool := false
  Automount : Option Bool := none
  MountOptions : String := ""
deriving Repr, DecidableEq

structure Volume where
  Size : String := ""
deriving Repr, DecidableEq

structure Network where
  Driver : String := ""
  Subnet : String := ""
deriving Repr, DecidableEq

structure VM where
  Image : String := ""
  CPU : Nat := 0
  Memory : Nat := 0
  Networks : List String := []
  Volumes : List VolumeMount := []
  Disk : Option DiskConfig := none
  SSH : Option SSHConfig := none
deriving Repr, DecidableEq

/-- Top-level compose document; Go maps are modelled as association lists. -/
structure ComposeConfig where
  Version : String := ""
  Networks : List (String × Network) := []
  Volumes : List (String × Volume) := []
  VMs : List (String × VM) := []
deriving Repr, DecidableEq

/-- Association-list lookup, modelling Go map indexing. -/
def lookupA {α : Type} (m : List (String × α)) (k : String) : Option α :=
  (m.find? (fun p => p.1 = k)).map (fun p => p.2)

/-- Flag loop of `parseShortForm`: `ro` sets read-only, anything else errors. -/
def parseFlags : VolumeMount → List String → Except String VolumeMount
  | v, [] => .ok v
  | v, f :: fs =>
    if f = "ro" then parseFlags { v with ReadOnly := true } fs
    else .error ("unknown volume flag: " ++ f)

/-- `(*VolumeMount).parseShortForm`: split on `:`, need at least
source and target, remaining parts are flags. -/
def parseShortForm (spec : String) : Except String VolumeMount :=
  let parts := (splitOnChar ':' spec.data).map (fun l => String.mk l)
  if parts.length < 2 then
    .error ("invalid volume spec: " ++ spec ++
      " (expected format: source:target or source:target:flags)")
  else
    parseFlags
      { Source := parts.getD 0 "", Target := parts.getD 1 "",
        ReadOnly := false, Automount := none, MountOptions := "" }
      (parts.drop 2)

/-- `loadComposeFile` shallow model.  Reading the file and YAML-decoding it
(including the per-entry `VolumeMount.UnmarshalYAML`) are delegated to the
environment; the model receives that outcome and shows the function adds no
validation of its own: a successfully decoded document is returned as-is. -/
def loadComposeFile (parsed : Except String ComposeConfig) :
    Except String ComposeConfig :=
  match parsed with
  | .error e => .error ("failed to parse compose file: " ++ e)
  | .ok config => .ok config

/-! ## Volume manager (volume.go) -/

structure VolumeMetadata where
  Name : String := ""
  Size : String := ""
  DiskPath : String := ""
  Created : String := ""
deriving Repr, DecidableEq

/-- `isBindMount`: a source containing a path separator or starting with
a dot is a bind mount. -/
def isBindMount (source : String) : Bool :=
  source.data.contains '/' || source.data.contains '\\' ||
    strStartsWith source "."

/-- `resolveBindMountPath`.  On Linux `filepath.IsAbs` is a leading `/`;
relative paths are joined to the compose file's directory (the model
concatenates with `/`, abstracting `filepath.Join`'s cleaning, which the
claims do not depend on).  `pathExists` models `os.Stat` succeeding. -/
def resolveBindMountPath (hostPath composeDir : String)
    (pathExists : String → Bool) : Except String String :=
  if strStartsWith hostPath "/" then
    if pathExists hostPath then .ok hostPath
    else .error ("bind mount path does not exist: " ++ hostPath)
  else
    let absPath := composeDir ++ "/" ++ hostPath
    if pathExists absPath then .ok absPath
    else .error ("bind mount path does not exist: " ++ hostPath ++
      " (resolved to: " ++ absPath ++ ")")

/-- `createNamedVolume` success path: no-op when the metadata already has
the entry, otherwise create and format the disk image and append the
metadata record (`Created` is a pid placeholder in the source). -/
def createNamedVolume (volumesDir : String)
    (metadata : List (String × VolumeMetadata)) (volumeName size : String) :
    List (String × VolumeMetadata) :=
  if (lookupA metadata volumeName).isSome then metadata
  else
    metadata ++ [(volumeName,
      { Name := volumeName, Size := size,
        DiskPath := volumesDir ++ "/" ++ volumeName ++ "/volume.qcow2",
        Created := "" })]

/-- `ensureVolumeExists`: idempotent; errors when the volume is neither in
`volumes.json` nor declared under the compose file's top-level `volumes`. -/
def ensureVolumeExists (volumeName : String) (config : ComposeConfig)
    (metadata : List (String × VolumeMetadata)) (volumesDir : String) :
    Except String (List (String × VolumeMetadata)) :=
  if (lookupA metadata volumeName).isSome then .ok metadata
  else
    match lookupA config.Volumes volumeName with
    | none => .error ("volume not defined in compose file: " ++ volumeName)
    | some volumeConfig =>
      let size := if volumeConfig.Size = "" then "10G" else volumeConfig.Size
      .ok (createNamedVolume volumesDir metadata volumeName size)

/-- `getVolumeDiskPath`. -/
def getVolumeDiskPath (metadata : List (String × VolumeMetadata))
    (volumeName : String) : Except String String :=
  match lookupA metadata volumeName with
  | none => .error ("volume not found: " ++ volumeName)
  | some volumeMeta => .ok volumeMeta.DiskPath

/-! ## VM volume parsing (vm.go: parseVMVolumes) -/

structure VMVolumeMount where
  VolumeName : String := ""
  MountPath : String := ""
  ReadOnly : Bool := false
  Automount : Bool := true
  MountOptions : String := ""
  IsBindMount : Bool := false
  HostPath : String := ""
  DiskPath : String := ""
deriving Repr, DecidableEq

/-- Loop body of `parseVMVolumes`, threading the volume metadata state
(`ensureVolumeExists` persists new volumes which `getVolumeDiskPath`
then reads back). -/
def parseVMVolumesGo (vmName composeDir volumesDir : String)
    (config : ComposeConfig) (pathExists : String → Bool) :
    List VolumeMount → List VMVolumeMount →
      List (String × VolumeMetadata) →
      Except String (List VMVolumeMount × List (String × VolumeMetadata))
  | [], acc, meta => .ok (acc, meta)
  | v :: rest, acc, meta =>
    if ¬ strStartsWith v.Target "/" then
      .error ("invalid mount path for VM " ++ vmName ++ ": " ++ v.Target ++
        " (must be absolute path)")
    else
      let automount := v.Automount.getD true
      if isBindMount v.Source then
        match resolveBindMountPath v.Source composeDir pathExists with
        | .error e => .error ("failed to resolve bind mount path: " ++ e)
        | .ok hostPath =>
          parseVMVolumesGo vmName composeDir volumesDir config pathExists rest
            (acc ++ [⟨v.Source, v.Target, v.ReadOnly, automount,
              v.MountOptions, true, hostPath, ""⟩]) meta
      else
        match ensureVolumeExists v.Source config meta volumesDir with
        | .error e => .error ("failed to ensure volume exists: " ++ e)
        | .ok meta2 =>
          match getVolumeDiskPath meta2 v.Source with
          | .error e => .error ("failed to get volume disk path: " ++ e)
          | .ok diskPath =>
            parseVMVolumesGo vmName composeDir volumesDir config pathExists
              rest
              (acc ++ [⟨v.Source, v.Target, v.ReadOnly, true,
                "", false, "", diskPath⟩]) meta2

/-- `parseVMVolumes`. -/
def parseVMVolumes (vmName : String) (vm : VM) (config : ComposeConfig)
    (composeDir volumesDir : String) (pathExists : String → Bool)
    (metadata : List (String × VolumeMetadata)) :
    Except String (List VMVolumeMount × List (String × VolumeMetadata)) :=
  parseVMVolumesGo vmName composeDir volumesDir config pathExists
    vm.Volumes [] metadata

/-! ## Network fabric: subnet allocation (network.go) -/

structure NetworkMetadata where
  Subnet : String := ""
  Driver : String := ""
  DnsmasqUnit : String := ""
  DnsmasqActive : Bool := false
deriving Repr, DecidableEq

/-- `fmt.Sprintf("172.%d.%d.0/24", 16+i/256, i%256)`. -/
def subnetString (i : Nat) : String :=
  "172." ++ toString (16 + i / 256) ++ "." ++ toString (i % 256) ++ ".0/24"

/-- Scan loop of `allocateSubnet`: first index in `[i, 4096)` whose CIDR is
not among the recorded subnets. -/
def allocateSubnetFrom (allocatedSubnets : List String) (i : Nat) :
    Except String String :=
  if _h : i < 4096 then
    if allocatedSubnets.contains (subnetString i) then
      allocateSubnetFrom allocatedSubnets (i + 1)
    else .ok (subnetString i)
  else .error "no available subnets in pool (172.16.0.0/12)"
termination_by 4096 - i

/-- `allocateSubnet`: collect the recorded subnets of `networks.json`
and scan `i = 0..4095`. -/
def allocateSubnet (metadata : List (String × NetworkMetadata)) :
    Except String String :=
  allocateSubnetFrom (metadata.map (fun p => p.2.Subnet)) 0

/-- `resolveNetworkSubnet`: explicit subnets are returned verbatim; an
existing allocation for the network is reused; otherwise a fresh subnet is
allocated and the updated metadata map is persisted (the model returns the
map that `saveNetworkMetadata` writes in one step). -/
def resolveNetworkSubnet (metadata : List (String × NetworkMetadata))
    (networkName : String) (network : Network) :
    Except String (String × List (String × NetworkMetadata)) :=
  if network.Subnet ≠ "auto" ∧ network.Subnet ≠ "" then
    .ok (network.Subnet, metadata)
  else
    match lookupA metadata networkName with
    | some existing => .ok (existing.Subnet, metadata)
    | none =>
      match allocateSubnet metadata with
      | .error e => .error e
      | .ok subnet =>
        .ok (subnet, metadata ++
          [(networkName, { Subnet := subnet, Driver := network.Driver })])

/-! ## Interface naming (network.go), at the byte level

Go slices strings by bytes (`s[:15]`), so these mirror the source on
UTF-8 byte lists; ASCII literals appear as their byte values. -/

/-- `strings.ReplaceAll(name, " ", "-")` on bytes (0x20 to 0x2D; the space
byte never occurs inside a multi-byte UTF-8 sequence). -/
def sanitizeBytes (name : List Nat) : List Nat :=
  name.map (fun b => if b = 32 then 45 else b)

/-- `getBridgeName`: `"qc-" + project + "-" + network` truncated to
15 bytes (`"qc-"` is `[113, 99, 45]`). -/
def getBridgeName (project network : List Nat) : List Nat :=
  let bridgeName :=
    [113, 99, 45] ++ sanitizeBytes project ++ [45] ++ sanitizeBytes network
  if bridgeName.length > 15 then bridgeName.take 15 else bridgeName

/-- Decimal ASCII bytes of a natural number (`%d`). -/
def decimalBytes (n : Nat) : List Nat :=
  (toString n).data.map Char.toNat

/-- The identifier `"<project>-<vm>-<index>"` as bytes. -/
def tapIdentifier (project vm : List Nat) (i : Nat) : List Nat :=
  project ++ [45] ++ vm ++ [45] ++ decimalBytes i

/-- `getTAPName`: `"tap-" + hash + "-" + vm` where `hash` is the first 4
bytes of the hex MD5 of the identifier and `vm` is the sanitized VM name
truncated to 6 bytes (`"tap-"` is `[116, 97, 112, 45]`). -/
def getTAPName (project vm : List Nat) (i : Nat) : List Nat :=
  let hash := (hexBytesOf (md5Bytes (tapIdentifier project vm i))).take 4
  let sanitizedVM := sanitizeBytes vm
  let sanitizedVM :=
    if sanitizedVM.length > 6 then sanitizedVM.take 6 else sanitizedVM
  [116, 97, 112, 45] ++ hash ++ [45] ++ sanitizedVM

/-! ## VM status (vm.go: getVMStatus) -/

/-- `getVMStatus`.  `vmInstanceExists` models the overlay-disk stat;
`activeState` is the supervisor query: `none` when the `systemctl show`
command fails, otherwise the trimmed `ActiveState` value; `sshReady`
models the `isVMReady` SSH probe. -/
def getVMStatus (vmInstanceExists : Bool) (activeState : Option String)
    (sshReady : Bool) : String :=
  if ¬ vmInstanceExists then "not-created"
  else
    match activeState with
    | none => "unknown"
    | some status =>
      if status = "inactive" then "stopped"
      else if status = "active" then
        (if sshReady then "ready" else "starting")
      else status

/-! ## SSH port allocation (vm.go: allocateSSHPort) -/

/-- Outcome of `allocateSSHPort`: the returned port or error, plus the port
written to `ports.json` by `savePortMetadata` (`none` when nothing is
written). -/
structure PortAllocResult where
  result : Except String Nat
  saved : Option Nat
deriving Repr

/-- The allocation scan: first port in `[port, 2322]` not recorded in
`getAllocatedPorts` and free on the network; the choice is persisted. -/
def scanSSHPort (allocatedPorts : List (Nat × String)) (avail : Nat → Bool)
    (port : Nat) : PortAllocResult :=
  if _h : port ≤ 2322 then
    if allocatedPorts.any (fun q => q.1 = port) then
      scanSSHPort allocatedPorts avail (port + 1)
    else if avail port then ⟨.ok port, some port⟩
    else scanSSHPort allocatedPorts avail (port + 1)
  else ⟨.error "no available ports in range 2222-2322", none⟩
termination_by 2323 - port

/-- Continuation of `allocateSSHPort` after the pinned-port check: reuse the
port recorded in `ports.json` when present and still free, else scan from
2222.  `stored` is the `loadPortMetadata` outcome (load errors are logged
and treated as no metadata). -/
def allocateSSHPortStored (stored : Option Nat)
    (allocatedPorts : List (Nat × String)) (avail : Nat → Bool) :
    PortAllocResult :=
  match stored with
  | some p =>
    if p > 0 then
      if avail p then ⟨.ok p, none⟩
      else scanSSHPort allocatedPorts avail 2222
    else scanSSHPort allocatedPorts avail 2222
  | none => scanSSHPort allocatedPorts avail 2222

/-- `allocateSSHPort`: a pinned port (`vm.SSH.Port > 0`) is verified free
and returned without persisting; otherwise fall through to the stored-port
and scan logic. -/
def allocateSSHPort (vm : VM) (stored : Option Nat)
    (allocatedPorts : List (Nat × String)) (avail : Nat → Bool) :
    PortAllocResult :=
  match vm.SSH with
  | some ssh =>
    if ssh.Port > 0 then
      if avail ssh.Port then ⟨.ok ssh.Port, none⟩
      else ⟨.error ("specified SSH port " ++ toString ssh.Port ++
        " is already in use"), none⟩
    else allocateSSHPortStored stored allocatedPorts avail
  | none => allocateSSHPortStored stored allocatedPorts avail

/-! ## Instance disk manager (image.go: createInstanceDisk) -/

structure DiskMetadata where
  Size : String := ""
deriving Repr, DecidableEq

/-- Observable actions of one `createInstanceDisk` run. -/
structure DiskActions where
  resized : Option String := none
  savedMeta : Option String := none
  warnedDrift : Bool := false
  warnedMetaError : Bool := false
deriving Repr, DecidableEq

/-- `createInstanceDisk` (success path of the subprocess calls).
`diskExists` models the overlay stat, `loadMeta` the `loadDiskMetadata`
outcome (`.error` for an unreadable metadata file, `.ok none` for a
missing one).  After defaulting, the declared size is never empty, so the
source's `diskConfig != nil && diskConfig.Size != ""` guard always holds. -/
def createInstanceDisk (diskExists : Bool)
    (loadMeta : Except Unit (Option DiskMetadata))
    (diskConfig : Option DiskConfig) : DiskActions :=
  let size :=
    match diskConfig with
    | none => "10G"
    | some d => if d.Size = "" then "10G" else d.Size
  if diskExists then
    match loadMeta with
    | .error _ => { warnedMetaError := true }
    | .ok none => { savedMeta := some size }
    | .ok (some metadata) =>
      if metadata.Size ≠ size then { warnedDrift := true } else {}
  else
    { resized := some size, savedMeta := some size }

/-! ## MAC addresses and QEMU argv (vm.go) -/

/-- `generateMACAddress`: QEMU's OUI `52:54:00` followed by the first three
bytes of the MD5 of `"<project>-<vm>-<index>"` (the project name is the
basename of the working directory, passed explicitly here). -/
def generateMACAddress (project vmName : String) (networkIndex : Nat) :
    String :=
  let identifier := project ++ "-" ++ vmName ++ "-" ++ toString networkIndex
  let hash := md5Bytes (utf8Bytes identifier)
  "52:54:00:" ++ hex2 (hash.getD 0 0) ++ ":" ++ hex2 (hash.getD 1 0) ++
    ":" ++ hex2 (hash.getD 2 0)

/-- `getTAPName` at the character level, for use inside the argv builder
(the authoritative byte-level version is `getTAPName` above; for the ASCII
names QEMU accepts the two agree). -/
def getTAPNameStr (project vmName : String) (i : Nat) : String :=
  let identifier := project ++ "-" ++ vmName ++ "-" ++ toString i
  let hash := String.mk
    (((hexBytesOf (md5Bytes (utf8Bytes identifier))).take 4).map Char.ofNat)
  let sanitizedVM := String.mk
    ((vmName.data.map (fun c => if c = ' ' then '-' else c)).take 6)
  "tap-" ++ hash ++ "-" ++ sanitizedVM

/-- Volume loop of `buildQEMUCommand`: bind mounts get a `-virtfs` with a
sequential `mount<i>` tag, named volumes a virtio `-drive`. -/
def volumeArgs : List VMVolumeMount → Nat → List String
  | [], _ => []
  | m :: rest, virtfsIndex =>
    if m.IsBindMount then
      ["-virtfs", "local,path=" ++ m.HostPath ++ ",mount_tag=mount" ++
        toString virtfsIndex ++ ",security_model=passthrough,id=mount" ++
        toString virtfsIndex] ++ volumeArgs rest (virtfsIndex + 1)
    else
      ["-drive", "file=" ++ m.DiskPath ++ ",format=qcow2,if=virtio"] ++
        volumeArgs rest virtfsIndex

/-- TAP/bridge loop of `buildQEMUCommand`: one `-netdev tap` plus one
`-device virtio-net-pci` per declared network. -/
def tapNetArgs (project vmName : String) : List String → Nat → List String
  | [], _ => []
  | _networkName :: rest, i =>
    ["-netdev", "tap,id=net" ++ toString i ++ ",ifname=" ++
        getTAPNameStr project vmName i ++ ",script=no,downscript=no",
      "-device", "virtio-net-pci,netdev=net" ++ toString i ++ ",mac=" ++
        generateMACAddress project vmName i] ++
      tapNetArgs project vmName rest (i + 1)

/-- User-mode NIC with SSH host-port forwarding, at network index `k`. -/
def userNetArgs (project vmName : String) (sshPort k : Nat) : List String :=
  ["-netdev", "user,id=net" ++ toString k ++ ",hostfwd=tcp:127.0.0.1:" ++
      toString sshPort ++ "-:22",
    "-device", "virtio-net-pci,netdev=net" ++ toString k ++ ",mac=" ++
      generateMACAddress project vmName k]

/-- `buildQEMUCommand`.  `cwd` and `project` model the process state the
source reads via `os.Getwd`/`getProjectName`; the console socket path is
`getConsoleSocketPath`. -/
def buildQEMUCommand (cwd project vmName : String) (vm : VM)
    (instanceDiskPath cloudInitISOPath : String) (sshPort : Nat)
    (volumeMounts : List VMVolumeMount) : List String :=
  let socketPath := cwd ++ "/.qemu-compose/" ++ vmName ++ "/console.sock"
  let args : List String :=
    ["qemu-system-x86_64",
     "-name", vmName,
     "-m", toString vm.Memory,
     "-smp", toString vm.CPU,
     "-drive", "file=" ++ instanceDiskPath ++ ",format=qcow2,if=virtio",
     "-nographic",
     "-serial", "unix:" ++ socketPath ++ ",server,nowait"]
  let args := args ++ volumeArgs volumeMounts 0
  let args := args ++
    (if vm.Networks.length > 0 then
      tapNetArgs project vmName vm.Networks 0 ++
        (if sshPort > 0 then
          userNetArgs project vmName sshPort vm.Networks.length
        else [])
    else
      (if sshPort > 0 then userNetArgs project vmName sshPort 0 else []))
  args ++
    (if cloudInitISOPath ≠ "" then
      ["-drive", "file=" ++ cloudInitISOPath ++ ",format=raw,if=virtio,media=cdrom"]
    else [])

/-- The MAC table assembled in `startVM` and handed to the cloud-init seed
builder: one entry per declared network, plus one for the user-mode SSH NIC
when a port was allocated. -/
def startVMMacAddresses (project vmName : String) (vm : VM) (sshPort : Nat) :
    List String :=
  (List.range vm.Networks.length).map
      (fun i => generateMACAddress project vmName i) ++
    (if sshPort > 0 then
      [generateMACAddress project vmName vm.Networks.length]
    else [])

/-- One `ethernets` entry of the generated cloud-init `network-config`:
`net<i>` matched by MAC with DHCP enabled
(`generateCloudInitISOWithVolumes`). -/
structure CloudInitEthernet where
  name : String
  macaddress : String
  dhcp4 : Bool
deriving Repr, DecidableEq

/-- The `ethernets` entries the seed builder writes, in order. -/
def cloudInitEthernets (macAddresses : List String) : List CloudInitEthernet :=
  macAddresses.enum.map (fun p => ⟨"net" ++ toString p.1, p.2, true⟩)

/-- Reads back the MAC of every `-device virtio-net-pci,…` argument of a
QEMU argv, in order (a MAC rendering is exactly 17 characters). -/
def extractNetMACs : List String → List String
  | [] => []
  | [_] => []
  | a :: b :: rest =>
    if a = "-device" ∧ strStartsWith b "virtio-net-pci," = true then
      takeRightStr b 17 :: extractNetMACs rest
    else extractNetMACs (b :: rest)

/-! ## Destroy command (command layer: destroyCmd)

State-passing model of the success path of `destroy`.  Workspace paths are
segment lists relative to `.qemu-compose/` (per-VM directories, and the
named-volume tree under `volumes/`); the `networks.json` and `volumes.json`
maps are separate components; host network objects are name lists (bridges
keyed by their network name, TAPs by device name). -/

structure ProjectState where
  files : List (List String)
  networksJson : List (String × NetworkMetadata)
  volumesJson : List (String × VolumeMetadata)
  bridges : List String
  taps : List String
  natSubnets : List String
deriving Repr, DecidableEq

/-- `removeInstanceDisk`: `os.RemoveAll` of `.qemu-compose/<vm>/`, i.e.
every workspace path whose first segment is the VM name. -/
def removeInstanceDisk (vmName : String) (st : ProjectState) : ProjectState :=
  { st with files := st.files.filter (fun p => p.head? ≠ some vmName) }

/-- `deleteTAPDevice` (absent device is a no-op). -/
def deleteTAPDevice (tapName : String) (st : ProjectState) : ProjectState :=
  { st with taps := st.taps.filter (fun t => t ≠ tapName) }

/-- `cleanupVMNetworks`: delete the VM's TAP device for every attached
network index. -/
def cleanupVMNetworks (project vmName : String) (vm : VM)
    (st : ProjectState) : ProjectState :=
  (List.range vm.Networks.length).foldl
    (fun s i => deleteTAPDevice (getTAPNameStr project vmName i) s) st

/-- `stopVM`: stop the supervisor unit (no project-state effect in the
model), then clean up the VM's TAPs when it uses bridge networking. -/
def stopVM (project vmName : String) (vm : VM) (st : ProjectState) :
    ProjectState :=
  if vm.Networks.length > 0 then cleanupVMNetworks project vmName vm st
  else st

/-- `stopDnsmasq`: stop the unit and persist `DnsmasqActive = false`. -/
def stopDnsmasq (networkName : String) (st : ProjectState) : ProjectState :=
  { st with networksJson := st.networksJson.map (fun p =>
      if p.1 = networkName then (p.1, { p.2 with DnsmasqActive := false })
      else p) }

/-- `cleanupNAT`: remove the MASQUERADE/FORWARD rules for the subnet. -/
def cleanupNAT (subnet : String) (st : ProjectState) : ProjectState :=
  { st with natSubnets := st.natSubnets.filter (fun s => s ≠ subnet) }

/-- `deleteBridge`: stop DHCP, remove NAT rules for the recorded subnet,
delete the bridge interface. -/
def deleteBridge (networkName : String) (st : ProjectState) : ProjectState :=
  let st1 := stopDnsmasq networkName st
  let st2 :=
    match lookupA st1.networksJson networkName with
    | some netMeta => cleanupNAT netMeta.Subnet st1
    | none => st1
  { st2 with bridges := st2.bridges.filter (fun b => b ≠ networkName) }

/-- `filterVMs`: all VMs when no names are given, else look each name up
(Go map iteration order is modelled as declaration order). -/
def filterVMsGo (config : ComposeConfig) :
    List String → Except String (List (String × VM))
  | [] => .ok []
  | n :: rest =>
    match lookupA config.VMs n with
    | none => .error ("VM not found in compose file: " ++ n)
    | some vm =>
      match filterVMsGo config rest with
      | .error e => .error e
      | .ok l => .ok ((n, vm) :: l)

def filterVMs (config : ComposeConfig) (vmNames : List String) :
    Except String (List (String × VM)) :=
  if vmNames = [] then .ok config.VMs else filterVMsGo config vmNames

/-- Per-VM body of the `destroy` loop: stop if running, clean up TAPs,
remove the instance directory. -/
def destroyVMStep (project : String) (running : String → Bool)
    (st : ProjectState) (p : String × VM) : ProjectState :=
  let st1 := if running p.1 then stopVM project p.1 p.2 st else st
  let st2 :=
    if p.2.Networks.length > 0 then cleanupVMNetworks project p.1 p.2 st1
    else st1
  removeInstanceDisk p.1 st2

/-- `destroyCmd` (success path): destroy the selected VMs; when invoked
with no VM arguments, additionally delete every declared network's bridge
and erase those networks from `networks.json`.  A `filterVMs` failure
exits before any side effect. -/
def destroyCmd (project : String) (config : ComposeConfig)
    (args : List String) (running : String → Bool) (st : ProjectState) :
    ProjectState :=
  match filterVMs config args with
  | .error _ => st
  | .ok vms =>
    let st1 := vms.foldl (destroyVMStep project running) st
    if args = [] then
      let names := config.Networks.map (fun p => p.1)
      let st2 := names.foldl (fun s n => deleteBridge n s) st1
      { st2 with networksJson :=
          st2.networksJson.filter (fun p => ¬ names.contains p.1) }
    else st1

/-! # Helper lemmas for the string, hex and MD5 embeddings -/

theorem splitOnCharAux_not_mem (c : Char) :
    ∀ (l acc : List Char), c ∉ l → splitOnCharAux c l acc = [acc.reverse ++ l]
  | [], acc, _ => by simp [splitOnCharAux]
  | x :: xs, acc, h => by
    have hx : ¬ x = c := fun hxc => h (hxc ▸ List.mem_cons_self x xs)
    have hxs : c ∉ xs := fun hm => h (List.mem_cons_of_mem _ hm)
    simp [splitOnCharAux, hx, splitOnCharAux_not_mem c xs (x :: acc) hxs]

theorem splitOnCharAux_append (c : Char) :
    ∀ (l₁ l₂ acc : List Char), c ∉ l₁ →
      splitOnCharAux c (l₁ ++ c :: l₂) acc =
        (acc.reverse ++ l₁) :: splitOnChar c l₂
  | [], l₂, acc, _ => by simp [splitOnCharAux, splitOnChar]
  | x :: xs, l₂, acc, h => by
    have hx : ¬ x = c := fun hxc => h (hxc ▸ List.mem_cons_self x xs)
    have hxs : c ∉ xs := fun hm => h (List.mem_cons_of_mem _ hm)
    simp [splitOnCharAux, hx, splitOnCharAux_append c xs l₂ (x :: acc) hxs]

theorem splitOnChar_not_mem (c : Char) (l : List Char) (h : c ∉ l) :
    splitOnChar c l = [l] := by
  simp [splitOnChar, splitOnCharAux_not_mem c l [] h]

theorem splitOnChar_append (c : Char) (l₁ l₂ : List Char) (h : c ∉ l₁) :
    splitOnChar c (l₁ ++ c :: l₂) = l₁ :: splitOnChar c l₂ := by
  simp [splitOnChar, splitOnCharAux_append c l₁ l₂ [] h]

theorem takeRightStr_append (s t : String) :
    takeRightStr (s ++ t) t.length = t := by
  apply String.ext
  show (s ++ t).data.drop ((s ++ t).data.length - t.length) = t.data
  have h1 : t.length = t.data.length := rfl
  rw [String.data_append, h1, List.length_append, Nat.add_sub_cancel,
    List.drop_left]

theorem hex2_length (n : Nat) : (hex2 n).length = 2 := rfl

theorem md5Bytes_length (msg : List Nat) : (md5Bytes msg).length = 16 := by
  simp [md5Bytes, wordLEBytes]

theorem wordLEBytes_lt (w : Nat) : ∀ x ∈ wordLEBytes w, x < 256 := by
  intro x hx
  simp only [wordLEBytes, List.mem_cons, List.not_mem_nil, or_false] at hx
  rcases hx with h | h | h | h <;> omega

theorem md5Bytes_lt_256 (msg : List Nat) :
    ∀ b ∈ md5Bytes msg, b < 256 := by
  intro x hx
  rcases List.mem_append.mp hx with h | h
  · rcases List.mem_append.mp h with h | h
    · rcases List.mem_append.mp h with h | h <;> exact wordLEBytes_lt _ _ h
    · exact wordLEBytes_lt _ _ h
  · exact wordLEBytes_lt _ _ h

theorem hexBytesOf_length (bytes : List Nat) :
    (hexBytesOf bytes).length = 2 * bytes.length := by
  induction bytes with
  | nil => simp [hexBytesOf]
  | cons b bs ih =>
    simp only [hexBytesOf, List.flatMap_cons] at ih ⊢
    simp [ih]
    ring

/-! # Claim C1: subnet allocation -/

theorem allocateSubnetFrom_ok (allocated : List String) :
    ∀ (fuel i target : Nat), target - i = fuel → i ≤ target → target < 4096 →
      allocated.contains (subnetString target) = false →
      (∀ j, i ≤ j → j < target → allocated.contains (subnetString j) = true) →
      allocateSubnetFrom allocated i = .ok (subnetString target)
  | 0, i, target, hfuel, hle, hlt, hfree, _hall => by
    have heq : i = target := by omega
    subst heq
    unfold allocateSubnetFrom
    rw [dif_pos hlt, hfree]
    simp
  | fuel + 1, i, target, hfuel, _hle, hlt, hfree, hall => by
    have hi : i < target := by omega
    have hcont : allocated.contains (subnetString i) = true :=
      hall i (Nat.le_refl i) hi
    unfold allocateSubnetFrom
    have hi4096 : i < 4096 := by omega
    simp only [hi4096, dite_true, hcont, if_true]
    exact allocateSubnetFrom_ok allocated fuel (i + 1) target (by omega)
      (by omega) hlt hfree (fun j hj1 hj2 => hall j (by omega) hj2)

theorem allocateSubnetFrom_exhausted (allocated : List String) :
    ∀ (fuel i : Nat), 4096 - i = fuel →
      (∀ j, i ≤ j → j < 4096 → allocated.contains (subnetString j) = true) →
      allocateSubnetFrom allocated i =
        .error "no available subnets in pool (172.16.0.0/12)"
  | 0, i, hfuel, _hall => by
    have hge : ¬ i < 4096 := by omega
    unfold allocateSubnetFrom
    simp [hge]
  | fuel + 1, i, hfuel, hall => by
    have hi : i < 4096 := by omega
    have hcont : allocated.contains (subnetString i) = true :=
      hall i (Nat.le_refl i) hi
    unfold allocateSubnetFrom
    simp only [hi, dite_true, hcont, if_true]
    exact allocateSubnetFrom_exhausted allocated fuel (i + 1) (by omega)
      (fun j hj1 hj2 => hall j (by omega) hj2)

theorem lookupA_append_self {α : Type} (m : List (String × α)) (k : String)
    (v : α) (h : lookupA m k = none) :
    lookupA (m ++ [(k, v)]) k = some v := by
  unfold lookupA at h ⊢
  have hfind : m.find? (fun p => p.1 = k) = none := by
    cases hf : m.find? (fun p => p.1 = k) with
    | none => rfl
    | some p => rw [hf] at h; simp at h
  rw [List.find?_append, hfind]
  simp

/-- C1: for every set of already-recorded subnets, `allocateSubnet` returns
the CIDR of the smallest free index `i ∈ [0, 4095]` (the string
`172.<16+i/256>.<i mod 256>.0/24`), errors exactly when all 4096 subnets
are taken, and `resolveNetworkSubnet` persists a fresh allocation into the
networks metadata; with nothing recorded the result is `172.16.0.0/24`,
and with `172.16.0.0/24` and `172.16.2.0/24` recorded it is
`172.16.1.0/24`. -/
theorem C1_subnet_allocation :
    (∀ (metadata : List (String × NetworkMetadata)) (i : Nat),
      i < 4096 →
      (metadata.map (fun p => p.2.Subnet)).contains (subnetString i) = false →
      (∀ j, j < i →
        (metadata.map (fun p => p.2.Subnet)).contains (subnetString j) = true) →
      allocateSubnet metadata = .ok (subnetString i)) ∧
    (∀ metadata : List (String × NetworkMetadata),
      (∀ i, i < 4096 →
        (metadata.map (fun p => p.2.Subnet)).contains (subnetString i) = true) →
      allocateSubnet metadata =
        .error "no available subnets in pool (172.16.0.0/12)") ∧
    (∀ (metadata : List (String × NetworkMetadata)) networkName network s,
      network.Subnet = "auto" →
      lookupA metadata networkName = none →
      allocateSubnet metadata = .ok s →
      resolveNetworkSubnet metadata networkName network =
        .ok (s, metadata ++ [(networkName, ⟨s, network.Driver, "", false⟩)]) ∧
      lookupA (metadata ++ [(networkName, ⟨s, network.Driver, "", false⟩)])
        networkName = some ⟨s, network.Driver, "", false⟩) ∧
    allocateSubnet [] = .ok "172.16.0.0/24" ∧
    allocateSubnet
      [("a", ⟨"172.16.0.0/24", "bridge", "", false⟩),
       ("b", ⟨"172.16.2.0/24", "bridge", "", false⟩)] =
      .ok "172.16.1.0/24" := by
  refine ⟨?_, ?_, ?_, ?_, ?_⟩
  · intro metadata i hi hfree hall
    exact allocateSubnetFrom_ok _ i 0 i (by omega) (Nat.zero_le i) hi hfree
      (fun j _ hj2 => hall j hj2)
  · intro metadata hall
    exact allocateSubnetFrom_exhausted _ 4096 0 rfl (fun j _ hj => hall j hj)
  · intro metadata networkName network s hauto hlook halloc
    constructor
    · unfold resolveNetworkSubnet
      rw [hauto]
      simp only [ne_eq, not_true_eq_false, false_and, if_false, hlook,
        halloc]
    · exact lookupA_append_self metadata networkName _ hlook
  · have h := allocateSubnetFrom_ok [] 0 0 0 rfl (Nat.le_refl 0) (by omega)
      (by decide) (fun j _ hj => absurd hj (by omega))
    unfold allocateSubnet
    simp only [List.map_nil]
    rw [h]
    congr 1
  · have h := allocateSubnetFrom_ok ["172.16.0.0/24", "172.16.2.0/24"] 1 0 1
      rfl (Nat.zero_le 1) (by omega) (by decide)
      (fun j _ hj => by
        have hj0 : j = 0 := by omega
        subst hj0
        decide)
    unfold allocateSubnet
    simp only [List.map_cons, List.map_nil]
    rw [h]
    congr 1

theorem C1_subnet_allocation_witness :
    allocateSubnet [("net0", ⟨"172.16.0.0/24", "bridge", "", false⟩)] =
      .ok (subnetString 1) :=
  C1_subnet_allocation.1 [("net0", ⟨"172.16.0.0/24", "bridge", "", false⟩)] 1
    (by omega) (by decide)
    (fun j hj => by
      have hj0 : j = 0 := by omega
      subst hj0
      decide)

/-! # Claim C4: VM status decision table -/

/-- C4 counterexample: the supervisor state `failed` is a not-active state,
yet `getVMStatus` reports it verbatim instead of `stopped` (only
`inactive` maps to `stopped`). -/
theorem C4_status_counterexample :
    getVMStatus true (some "failed") false = "failed" ∧
    ("failed" : String) ≠ "stopped" :=
  ⟨rfl, by decide⟩

/-- C4 (amended): overlay absent reports `not-created`; a failed supervisor
query reports `unknown`; `stopped` is reported exactly for the supervisor
state `inactive`; `active` reports `ready` or `starting` according to the
SSH probe; every other supervisor state string is reported verbatim. -/
theorem C4_status_decision_table :
    (∀ activeState sshReady,
      getVMStatus false activeState sshReady = "not-created") ∧
    (∀ sshReady, getVMStatus true none sshReady = "unknown") ∧
    (∀ sshReady, getVMStatus true (some "inactive") sshReady = "stopped") ∧
    getVMStatus true (some "active") true = "ready" ∧
    getVMStatus true (some "active") false = "starting" ∧
    (∀ s sshReady, s ≠ "inactive" → s ≠ "active" →
      getVMStatus true (some s) sshReady = s) := by
  refine ⟨fun _ _ => rfl, fun _ => rfl, fun _ => rfl, rfl, rfl, ?_⟩
  intro s r h1 h2
  simp [getVMStatus, h1, h2]

theorem C4_status_decision_table_witness :
    getVMStatus true (some "activating") true = "activating" :=
  C4_status_decision_table.2.2.2.2.2 "activating" true (by decide) (by decide)

/-! # Claim C6: disk-size drift handling -/

/-- C6: an existing overlay is never resized; on a declared/stored size
mismatch only a drift warning is emitted (no resize, no metadata write);
missing metadata on an existing disk is backfilled with the declared size;
a resize (plus metadata write) happens exactly on first creation. -/
theorem C6_disk_size_drift :
    (∀ loadMeta diskConfig,
      (createInstanceDisk true loadMeta diskConfig).resized = none) ∧
    (∀ (m : DiskMetadata) (d : DiskConfig), d.Size ≠ "" → m.Size ≠ d.Size →
      createInstanceDisk true (.ok (some m)) (some d) =
        { resized := none, savedMeta := none, warnedDrift := true,
          warnedMetaError := false }) ∧
    (∀ d : DiskConfig, d.Size ≠ "" →
      createInstanceDisk true (.ok none) (some d) =
        { resized := none, savedMeta := some d.Size, warnedDrift := false,
          warnedMetaError := false }) ∧
    (createInstanceDisk true (.ok none) none =
      { resized := none, savedMeta := some "10G", warnedDrift := false,
        warnedMetaError := false }) ∧
    (∀ (d : DiskConfig) loadMeta, d.Size ≠ "" →
      createInstanceDisk false loadMeta (some d) =
        { resized := some d.Size, savedMeta := some d.Size,
          warnedDrift := false, warnedMetaError := false }) ∧
    (∀ loadMeta,
      createInstanceDisk false loadMeta none =
        { resized := some "10G", savedMeta := some "10G",
          warnedDrift := false, warnedMetaError := false }) := by
  refine ⟨?_, ?_, ?_, rfl, ?_, fun _ => rfl⟩
  · intro loadMeta diskConfig
    rcases loadMeta with e | om
    · rfl
    · rcases om with _ | m
      · rfl
      · show (if m.Size ≠ _ then _ else _ : DiskActions).resized = none
        split <;> rfl
  · intro m d h1 h2
    have hsz : (if d.Size = "" then "10G" else d.Size) = d.Size := if_neg h1
    show (if m.Size ≠ (if d.Size = "" then "10G" else d.Size) then _ else _ :
      DiskActions) = _
    rw [hsz, if_pos h2]
  · intro d h1
    have hsz : (if d.Size = "" then "10G" else d.Size) = d.Size := if_neg h1
    show ({ savedMeta := some (if d.Size = "" then "10G" else d.Size) } :
      DiskActions) = _
    rw [hsz]
  · intro d loadMeta h1
    have hsz : (if d.Size = "" then "10G" else d.Size) = d.Size := if_neg h1
    show ({ resized := some (if d.Size = "" then "10G" else d.Size),
            savedMeta := some (if d.Size = "" then "10G" else d.Size) } :
          DiskActions) = _
    rw [hsz]

theorem C6_disk_size_drift_witness :
    createInstanceDisk true (.ok (some { Size := "5G" }))
      (some { Size := "20G" }) =
      { resized := none, savedMeta := none, warnedDrift := true,
        warnedMetaError := false } :=
  C6_disk_size_drift.2.1 { Size := "5G" } { Size := "20G" }
    (by decide) (by decide)

/-! # Claims C5 and C10: SSH port allocation -/

theorem scanSSHPort_ok (allocatedPorts : List (Nat × String))
    (avail : Nat → Bool) :
    ∀ (fuel p target : Nat), target - p = fuel → p ≤ target → target ≤ 2322 →
      allocatedPorts.any (fun q => q.1 = target) = false →
      avail target = true →
      (∀ j, p ≤ j → j < target →
        allocatedPorts.any (fun q => q.1 = j) = true ∨ avail j = false) →
      scanSSHPort allocatedPorts avail p = ⟨.ok target, some target⟩
  | 0, p, target, hfuel, hle, hmax, hany, havail, _hmin => by
    have heq : p = target := by omega
    subst heq
    unfold scanSSHPort
    rw [dif_pos hmax, hany]
    simp [havail]
  | fuel + 1, p, target, hfuel, _hle, hmax, hany, havail, hmin => by
    have hp : p < target := by omega
    have hple : p ≤ 2322 := by omega
    have step := hmin p (Nat.le_refl p) hp
    unfold scanSSHPort
    rw [dif_pos hple]
    have hrec := scanSSHPort_ok allocatedPorts avail fuel (p + 1) target
      (by omega) (by omega) hmax hany havail
      (fun j hj1 hj2 => hmin j (by omega) hj2)
    rcases step with hpany | hpavail
    · rw [hpany]
      simpa using hrec
    · cases hpany2 : allocatedPorts.any (fun q => q.1 = p) with
      | true => simpa using hrec
      | false =>
        rw [hpavail]
        simpa using hrec

theorem scanSSHPort_exhausted (allocatedPorts : List (Nat × String))
    (avail : Nat → Bool) :
    ∀ (fuel p : Nat), 2323 - p = fuel →
      (∀ j, p ≤ j → j ≤ 2322 →
        allocatedPorts.any (fun q => q.1 = j) = true ∨ avail j = false) →
      scanSSHPort allocatedPorts avail p =
        ⟨.error "no available ports in range 2222-2322", none⟩
  | 0, p, hfuel, _hall => by
    have hgt : ¬ p ≤ 2322 := by omega
    unfold scanSSHPort
    rw [dif_neg hgt]
  | fuel + 1, p, hfuel, hall => by
    have hple : p ≤ 2322 := by omega
    have step := hall p (Nat.le_refl p) hple
    unfold scanSSHPort
    rw [dif_pos hple]
    have hrec := scanSSHPort_exhausted allocatedPorts avail fuel (p + 1)
      (by omega) (fun j hj1 hj2 => hall j (by omega) hj2)
    rcases step with hpany | hpavail
    · rw [hpany]
      simpa using hrec
    · cases hpany2 : allocatedPorts.any (fun q => q.1 = p) with
      | true => simpa using hrec
      | false =>
        rw [hpavail]
        simpa using hrec

theorem scanSSHPort_saved (allocatedPorts : List (Nat × String))
    (avail : Nat → Bool) :
    ∀ (fuel p t : Nat), 2323 - p = fuel →
      (scanSSHPort allocatedPorts avail p).saved = some t →
      (scanSSHPort allocatedPorts avail p).result = .ok t ∧
        p ≤ t ∧ t ≤ 2322 ∧ avail t = true
  | 0, p, t, hfuel, hsaved => by
    have hgt : ¬ p ≤ 2322 := by omega
    unfold scanSSHPort at hsaved
    rw [dif_neg hgt] at hsaved
    cases hsaved
  | fuel + 1, p, t, hfuel, hsaved => by
    have hple : p ≤ 2322 := by omega
    unfold scanSSHPort at hsaved ⊢
    rw [dif_pos hple] at hsaved ⊢
    cases hpany : allocatedPorts.any (fun q => q.1 = p) with
    | true =>
      simp only [hpany, if_true] at hsaved ⊢
      have hres := scanSSHPort_saved allocatedPorts avail fuel (p + 1) t
        (by omega) hsaved
      exact ⟨hres.1, by omega, hres.2.2⟩
    | false =>
      simp only [hpany, Bool.false_eq_true, if_false] at hsaved ⊢
      cases hpavail : avail p with
      | true =>
        simp only [hpavail, if_true] at hsaved ⊢
        have ht : t = p := by
          have h2 : some p = some t := hsaved
          cases h2
          rfl
        subst ht
        exact ⟨rfl, Nat.le_refl t, hple, hpavail⟩
      | false =>
        simp only [hpavail, Bool.false_eq_true, if_false] at hsaved ⊢
        have hres := scanSSHPort_saved allocatedPorts avail fuel (p + 1) t
          (by omega) hsaved
        exact ⟨hres.1, by omega, hres.2.2⟩

/-- The stored-port fallthrough reduces to the scan when the recorded port
is unusable. -/
theorem allocateSSHPortStored_scan (stored : Option Nat)
    (allocatedPorts : List (Nat × String)) (avail : Nat → Bool)
    (h : stored = none ∨ ∃ q, stored = some q ∧ (q = 0 ∨ avail q = false)) :
    allocateSSHPortStored stored allocatedPorts avail =
      scanSSHPort allocatedPorts avail 2222 := by
  rcases h with h | ⟨q, hq, hbad⟩
  · subst h
    rfl
  · subst hq
    unfold allocateSSHPortStored
    rcases hbad with hq0 | hqa
    · subst hq0
      simp
    · by_cases hq0 : q > 0
      · simp [hq0, hqa]
      · simp [hq0]

/-- A VM with no pinned port falls through to the stored-port logic. -/
theorem allocateSSHPort_noPin (vm : VM) (stored : Option Nat)
    (allocatedPorts : List (Nat × String)) (avail : Nat → Bool)
    (h : vm.SSH = none ∨ ∃ s, vm.SSH = some s ∧ s.Port = 0) :
    allocateSSHPort vm stored allocatedPorts avail =
      allocateSSHPortStored stored allocatedPorts avail := by
  unfold allocateSSHPort
  rcases h with h | ⟨s, hs, hp⟩
  · rw [h]
  · rw [hs]
    simp [hp]

theorem allocateSSHPortStored_saved (stored : Option Nat)
    (allocatedPorts : List (Nat × String)) (avail : Nat → Bool) (t : Nat)
    (hsaved : (allocateSSHPortStored stored allocatedPorts avail).saved =
      some t) :
    (allocateSSHPortStored stored allocatedPorts avail).result = .ok t ∧
      2222 ≤ t ∧ t ≤ 2322 ∧ avail t = true ∧
      ¬(∃ q, stored = some q ∧ q > 0 ∧ avail q = true) := by
  have hscan : ∀ hs : stored = none ∨
      ∃ q, stored = some q ∧ (q = 0 ∨ avail q = false),
      (allocateSSHPortStored stored allocatedPorts avail).result = .ok t ∧
        2222 ≤ t ∧ t ≤ 2322 ∧ avail t = true := by
    intro hs
    rw [allocateSSHPortStored_scan stored allocatedPorts avail hs] at hsaved ⊢
    exact scanSSHPort_saved allocatedPorts avail 101 2222 t rfl hsaved
  cases hst : stored with
  | none =>
    subst hst
    refine ⟨?_, ?_, ?_, ?_, ?_⟩ <;>
      first
        | exact (hscan (Or.inl rfl)).1
        | exact (hscan (Or.inl rfl)).2.1
        | exact (hscan (Or.inl rfl)).2.2.1
        | exact (hscan (Or.inl rfl)).2.2.2
        | (rintro ⟨q, hq, _⟩; cases hq)
  | some q =>
    subst hst
    by_cases hq0 : q > 0
    · cases hqa : avail q with
      | true =>
        exfalso
        have hred : allocateSSHPortStored (some q) allocatedPorts avail =
            ⟨.ok q, none⟩ := by
          unfold allocateSSHPortStored
          simp [hq0, hqa]
        rw [hred] at hsaved
        cases hsaved
      | false =>
        have hs : (some q : Option Nat) = none ∨
            ∃ r, (some q : Option Nat) = some r ∧ (r = 0 ∨ avail r = false) :=
          Or.inr ⟨q, rfl, Or.inr hqa⟩
        have hres := hscan hs
        refine ⟨hres.1, hres.2.1, hres.2.2.1, hres.2.2.2, ?_⟩
        rintro ⟨r, hr, _hr0, hra⟩
        cases hr
        rw [hqa] at hra
        cases hra
    · have hq0' : q = 0 := by omega
      have hs : (some q : Option Nat) = none ∨
          ∃ r, (some q : Option Nat) = some r ∧ (r = 0 ∨ avail r = false) :=
        Or.inr ⟨q, rfl, Or.inl hq0'⟩
      have hres := hscan hs
      refine ⟨hres.1, hres.2.1, hres.2.2.1, hres.2.2.2, ?_⟩
      rintro ⟨r, hr, hr0, _⟩
      cases hr
      omega

/-- C5: a pinned SSH port is returned only when free (error when busy, and
nothing is persisted either way); otherwise the port recorded in
`ports.json` is reused when still free; otherwise the first port of
[2222, 2322] that is free and not recorded for another VM of the project is
chosen and persisted; when no such port exists the error names the
exhausted range. -/
theorem C5_ssh_port_allocation :
    (∀ (vm : VM) (ssh : SSHConfig) stored allocatedPorts
        (avail : Nat → Bool),
      vm.SSH = some ssh → ssh.Port > 0 → avail ssh.Port = true →
      allocateSSHPort vm stored allocatedPorts avail = ⟨.ok ssh.Port, none⟩) ∧
    (∀ (vm : VM) (ssh : SSHConfig) stored allocatedPorts
        (avail : Nat → Bool),
      vm.SSH = some ssh → ssh.Port > 0 → avail ssh.Port = false →
      allocateSSHPort vm stored allocatedPorts avail =
        ⟨.error ("specified SSH port " ++ toString ssh.Port ++
          " is already in use"), none⟩) ∧
    (∀ (vm : VM) (p : Nat) allocatedPorts (avail : Nat → Bool),
      (vm.SSH = none ∨ ∃ s, vm.SSH = some s ∧ s.Port = 0) →
      p > 0 → avail p = true →
      allocateSSHPort vm (some p) allocatedPorts avail = ⟨.ok p, none⟩) ∧
    (∀ (vmName : String) (vm : VM) stored allocatedPorts
        (avail : Nat → Bool) (t : Nat),
      (vm.SSH = none ∨ ∃ s, vm.SSH = some s ∧ s.Port = 0) →
      (stored = none ∨ ∃ q, stored = some q ∧ (q = 0 ∨ avail q = false)) →
      (∀ e ∈ allocatedPorts, e.2 = vmName → avail e.1 = false) →
      2222 ≤ t → t ≤ 2322 → avail t = true →
      (∀ e ∈ allocatedPorts, e.1 = t → e.2 = vmName) →
      (∀ j, 2222 ≤ j → j < t →
        ¬(avail j = true ∧ ∀ e ∈ allocatedPorts, e.1 = j → e.2 = vmName)) →
      allocateSSHPort vm stored allocatedPorts avail = ⟨.ok t, some t⟩) ∧
    (∀ (vmName : String) (vm : VM) stored allocatedPorts
        (avail : Nat → Bool),
      (vm.SSH = none ∨ ∃ s, vm.SSH = some s ∧ s.Port = 0) →
      (stored = none ∨ ∃ q, stored = some q ∧ (q = 0 ∨ avail q = false)) →
      (∀ e ∈ allocatedPorts, e.2 = vmName → avail e.1 = false) →
      (∀ t, 2222 ≤ t → t ≤ 2322 →
        ¬(avail t = true ∧ ∀ e ∈ allocatedPorts, e.1 = t → e.2 = vmName)) →
      allocateSSHPort vm stored allocatedPorts avail =
        ⟨.error "no available ports in range 2222-2322", none⟩) := by
  refine ⟨?_, ?_, ?_, ?_, ?_⟩
  · intro vm ssh stored allocatedPorts avail hssh hport havail
    unfold allocateSSHPort
    rw [hssh]
    simp [hport, havail]
  · intro vm ssh stored allocatedPorts avail hssh hport havail
    unfold allocateSSHPort
    rw [hssh]
    simp [hport, havail]
  · intro vm p allocatedPorts avail hpin hp0 havail
    rw [allocateSSHPort_noPin vm (some p) allocatedPorts avail hpin]
    unfold allocateSSHPortStored
    simp [hp0, havail]
  · intro vmName vm stored allocatedPorts avail t hpin hstored hself ht1 ht2
      htavail hnotother hmin
    rw [allocateSSHPort_noPin vm stored allocatedPorts avail hpin,
      allocateSSHPortStored_scan stored allocatedPorts avail hstored]
    have hany : allocatedPorts.any (fun q => q.1 = t) = false := by
      cases hc : allocatedPorts.any (fun q => q.1 = t) with
      | false => rfl
      | true =>
        exfalso
        rcases List.any_eq_true.mp hc with ⟨e, he, hep⟩
        have hep' : e.1 = t := by simpa using hep
        have hown : e.2 = vmName := hnotother e he hep'
        have hav := hself e he hown
        rw [hep'] at hav
        rw [hav] at htavail
        cases htavail
    apply scanSSHPort_ok allocatedPorts avail (t - 2222) 2222 t (by omega)
      (by omega) ht2 hany htavail
    intro j hj1 hj2
    by_cases hav : avail j = true
    · left
      have hno := hmin j hj1 hj2
      push_neg at hno
      rcases hno hav with ⟨e, he, hej, hene⟩
      exact List.any_eq_true.mpr ⟨e, he, by simpa using hej⟩
    · right
      cases h : avail j with
      | false => rfl
      | true => exact absurd h hav
  · intro vmName vm stored allocatedPorts avail hpin hstored hself hall
    rw [allocateSSHPort_noPin vm stored allocatedPorts avail hpin,
      allocateSSHPortStored_scan stored allocatedPorts avail hstored]
    apply scanSSHPort_exhausted allocatedPorts avail 101 2222 rfl
    intro j hj1 hj2
    by_cases hav : avail j = true
    · left
      have hno := hall j hj1 hj2
      push_neg at hno
      rcases hno hav with ⟨e, he, hej, hene⟩
      exact List.any_eq_true.mpr ⟨e, he, by simpa using hej⟩
    · right
      cases h : avail j with
      | false => rfl
      | true => exact absurd h hav

theorem C5_ssh_port_allocation_witness :
    allocateSSHPort { Image := "img" } none [(2222, "other")]
      (fun p => decide (2223 ≤ p)) = ⟨.ok 2223, some 2223⟩ :=
  C5_ssh_port_allocation.2.2.2.1 "vm1" { Image := "img" } none
    [(2222, "other")] (fun p => decide (2223 ≤ p)) 2223
    (Or.inl rfl) (Or.inl rfl)
    (fun e he hv => by
      have he' : e = (2222, "other") := by simpa using he
      subst he'
      exact absurd hv (by decide))
    (by omega) (by omega) (by decide)
    (fun e he hp => by
      have he' : e = (2222, "other") := by simpa using he
      subst he'
      simp at hp)
    (fun j hj1 hj2 => by
      have hj : j = 2222 := by omega
      subst hj
      rintro ⟨hav, _⟩
      simp at hav)

/-- C10: when the configuration pins an SSH port, `allocateSSHPort` never
writes `ports.json` (neither when the port is free nor when it is busy);
conversely any write records exactly the freshly scanned port, which is
also the returned port, lies in [2222, 2322], is free, and is only reached
with no pinned port and no usable stored port. -/
theorem C10_pinned_port_never_persisted :
    (∀ (vm : VM) (ssh : SSHConfig) stored allocatedPorts
        (avail : Nat → Bool),
      vm.SSH = some ssh → ssh.Port > 0 →
      (allocateSSHPort vm stored allocatedPorts avail).saved = none) ∧
    (∀ (vm : VM) stored allocatedPorts (avail : Nat → Bool) (t : Nat),
      (allocateSSHPort vm stored allocatedPorts avail).saved = some t →
      (allocateSSHPort vm stored allocatedPorts avail).result = .ok t ∧
        2222 ≤ t ∧ t ≤ 2322 ∧ avail t = true ∧
        (vm.SSH = none ∨ ∃ s, vm.SSH = some s ∧ s.Port = 0) ∧
        ¬(∃ q, stored = some q ∧ q > 0 ∧ avail q = true)) := by
  constructor
  · intro vm ssh stored allocatedPorts avail hssh hport
    unfold allocateSSHPort
    rw [hssh]
    simp only [hport, if_true]
    cases h : avail ssh.Port with
    | true => simp [h]
    | false => simp [h]
  · intro vm stored allocatedPorts avail t hsaved
    cases hssh : vm.SSH with
    | none =>
      have hpin : vm.SSH = none ∨ ∃ s, vm.SSH = some s ∧ s.Port = 0 :=
        Or.inl hssh
      rw [allocateSSHPort_noPin vm stored allocatedPorts avail hpin]
        at hsaved ⊢
      have hres := allocateSSHPortStored_saved stored allocatedPorts avail t
        hsaved
      exact ⟨hres.1, hres.2.1, hres.2.2.1, hres.2.2.2.1, Or.inl rfl,
        hres.2.2.2.2⟩
    | some ssh =>
      by_cases hp : ssh.Port > 0
      · exfalso
        have hnone : (allocateSSHPort vm stored allocatedPorts avail).saved =
            none := by
          unfold allocateSSHPort
          rw [hssh]
          simp only [hp, if_true]
          cases h : avail ssh.Port with
          | true => simp [h]
          | false => simp [h]
        rw [hnone] at hsaved
        cases hsaved
      · have hpin : vm.SSH = none ∨ ∃ s, vm.SSH = some s ∧ s.Port = 0 :=
          Or.inr ⟨ssh, hssh, by omega⟩
        rw [allocateSSHPort_noPin vm stored allocatedPorts avail hpin]
          at hsaved ⊢
        have hres := allocateSSHPortStored_saved stored allocatedPorts avail
          t hsaved
        exact ⟨hres.1, hres.2.1, hres.2.2.1, hres.2.2.2.1,
          Or.inr ⟨ssh, rfl, by omega⟩, hres.2.2.2.2⟩

theorem C10_pinned_port_never_persisted_witness :
    (allocateSSHPort { Image := "img", SSH := some { Port := 2500 } } none []
      (fun _ => false)).saved = none :=
  C10_pinned_port_never_persisted.1
    { Image := "img", SSH := some { Port := 2500 } } { Port := 2500 } none []
    (fun _ => false) rfl (by decide)

/-! # Claim C8: short-form volume parsing -/

theorem parseShortForm_basic (src tgt : String) (hs : ':' ∉ src.data)
    (ht : ':' ∉ tgt.data) :
    parseShortForm (src ++ ":" ++ tgt) =
      .ok ⟨src, tgt, false, none, ""⟩ := by
  have hdata : (src ++ ":" ++ tgt).data = src.data ++ ':' :: tgt.data := by
    rw [String.data_append, String.data_append, List.append_assoc]
    rfl
  unfold parseShortForm
  rw [hdata, splitOnChar_append _ _ _ hs, splitOnChar_not_mem _ _ ht]
  simp [parseFlags]

theorem parseShortForm_ro (src tgt : String) (hs : ':' ∉ src.data)
    (ht : ':' ∉ tgt.data) :
    parseShortForm (src ++ ":" ++ tgt ++ ":ro") =
      .ok ⟨src, tgt, true, none, ""⟩ := by
  have hdata : (src ++ ":" ++ tgt ++ ":ro").data =
      src.data ++ ':' :: (tgt.data ++ ':' :: ['r', 'o']) := by
    rw [String.data_append, String.data_append, String.data_append,
      List.append_assoc, List.append_assoc]
    rfl
  unfold parseShortForm
  rw [hdata, splitOnChar_append _ _ _ hs, splitOnChar_append _ _ _ ht,
    splitOnChar_not_mem _ _ (by decide : ':' ∉ ['r', 'o'])]
  simp [parseFlags]

theorem parseShortForm_unknown_flag (src tgt fl : String)
    (hs : ':' ∉ src.data) (ht : ':' ∉ tgt.data) (hf : ':' ∉ fl.data)
    (hfro : fl ≠ "ro") :
    parseShortForm (src ++ ":" ++ tgt ++ ":" ++ fl) =
      .error ("unknown volume flag: " ++ fl) := by
  have hdata : (src ++ ":" ++ tgt ++ ":" ++ fl).data =
      src.data ++ ':' :: (tgt.data ++ ':' :: fl.data) := by
    rw [String.data_append, String.data_append, String.data_append,
      String.data_append, List.append_assoc, List.append_assoc]
    have hc : (":" : String).data = [':'] := rfl
    rw [hc]
    simp
  unfold parseShortForm
  rw [hdata, splitOnChar_append _ _ _ hs, splitOnChar_append _ _ _ ht,
    splitOnChar_not_mem _ _ hf]
  simp [parseFlags, hfro]

theorem parseShortForm_no_colon (u : String) (hu : ':' ∉ u.data) :
    parseShortForm u =
      .error ("invalid volume spec: " ++ u ++
        " (expected format: source:target or source:target:flags)") := by
  unfold parseShortForm
  rw [splitOnChar_not_mem _ _ hu]
  simp

/-- C8: `source:target` (source and target colon-free) parses to the
long-form record with read-only false, default automount, and no mount
options; the `ro` flag sets read-only; any other flag errors; and a spec
with fewer than two colon-separated parts errors. -/
theorem C8_short_form_parsing :
    (∀ src tgt : String, ':' ∉ src.data → ':' ∉ tgt.data →
      parseShortForm (src ++ ":" ++ tgt) =
        .ok ⟨src, tgt, false, none, ""⟩) ∧
    (∀ src tgt : String, ':' ∉ src.data → ':' ∉ tgt.data →
      parseShortForm (src ++ ":" ++ tgt ++ ":ro") =
        .ok ⟨src, tgt, true, none, ""⟩) ∧
    (∀ src tgt fl : String, ':' ∉ src.data → ':' ∉ tgt.data →
      ':' ∉ fl.data → fl ≠ "ro" →
      parseShortForm (src ++ ":" ++ tgt ++ ":" ++ fl) =
        .error ("unknown volume flag: " ++ fl)) ∧
    (∀ u : String, ':' ∉ u.data →
      parseShortForm u =
        .error ("invalid volume spec: " ++ u ++
          " (expected format: source:target or source:target:flags)")) :=
  ⟨parseShortForm_basic, parseShortForm_ro, parseShortForm_unknown_flag,
    parseShortForm_no_colon⟩

theorem C8_short_form_parsing_witness :
    parseShortForm ("./config" ++ ":" ++ "/etc/app" ++ ":ro") =
      .ok ⟨"./config", "/etc/app", true, none, ""⟩ :=
  C8_short_form_parsing.2.1 "./config" "/etc/app" (by decide) (by decide)

/-! # Claim C3: load-time rejection -/

/-- C3 counterexample: a decoded compose document whose VM is missing
`image`, `cpu` and `memory` (their Go zero values) is accepted by
`loadComposeFile` unchanged — no error is raised for missing required
fields. -/
theorem C3_load_missing_fields_counterexample :
    loadComposeFile
      (.ok { Version := "1",
             VMs := [("vm1", { Image := "", CPU := 0, Memory := 0 })] }) =
    .ok { Version := "1",
          VMs := [("vm1", { Image := "", CPU := 0, Memory := 0 })] } := rfl

theorem ensureVolumeExists_undeclared (volumeName : String)
    (config : ComposeConfig) (metadata : List (String × VolumeMetadata))
    (volumesDir : String) (hmeta : lookupA metadata volumeName = none)
    (hcfg : lookupA config.Volumes volumeName = none) :
    ensureVolumeExists volumeName config metadata volumesDir =
      .error ("volume not defined in compose file: " ++ volumeName) := by
  unfold ensureVolumeExists
  rw [hmeta, hcfg]
  rfl

theorem parseVMVolumesGo_bad_target (vmName composeDir volumesDir : String)
    (config : ComposeConfig) (pathExists : String → Bool) :
    ∀ (entries : List VolumeMount) (acc : List VMVolumeMount)
      (meta : List (String × VolumeMetadata)),
      (∃ m ∈ entries, strStartsWith m.Target "/" = false) →
      ∃ e, parseVMVolumesGo vmName composeDir volumesDir config pathExists
        entries acc meta = .error e := by
  intro entries
  induction entries with
  | nil =>
    intro acc meta hex
    rcases hex with ⟨m, hm, _⟩
    cases hm
  | cons v rest ih =>
    intro acc meta hex
    by_cases hv : strStartsWith v.Target "/" = false
    · refine ⟨"invalid mount path for VM " ++ vmName ++ ": " ++ v.Target ++
        " (must be absolute path)", ?_⟩
      unfold parseVMVolumesGo
      rw [hv]
      simp
    · have hv' : strStartsWith v.Target "/" = true := by
        cases h : strStartsWith v.Target "/" with
        | true => rfl
        | false => exact absurd h hv
      have hrest : ∃ m ∈ rest, strStartsWith m.Target "/" = false := by
        rcases hex with ⟨m, hm, hbad⟩
        rcases List.mem_cons.mp hm with heq | hmem
        · subst heq
          exact absurd hbad hv
        · exact ⟨m, hmem, hbad⟩
      unfold parseVMVolumesGo
      rw [if_neg (by rw [hv']; simp)]
      by_cases hbm : isBindMount v.Source = true
      · rw [if_pos (by rw [hbm] : isBindMount v.Source = true)]
        cases hres : resolveBindMountPath v.Source composeDir pathExists with
        | error e => exact ⟨"failed to resolve bind mount path: " ++ e, rfl⟩
        | ok hostPath =>
          exact ih (acc ++ [⟨v.Source, v.Target, v.ReadOnly,
            v.Automount.getD true, v.MountOptions, true, hostPath, ""⟩])
            meta hrest
      · rw [if_neg hbm]
        cases hens : ensureVolumeExists v.Source config meta volumesDir with
        | error e => exact ⟨"failed to ensure volume exists: " ++ e, rfl⟩
        | ok meta2 =>
          dsimp only
          cases hget : getVolumeDiskPath meta2 v.Source with
          | error e => exact ⟨"failed to get volume disk path: " ++ e, rfl⟩
          | ok diskPath =>
            exact ih (acc ++ [⟨v.Source, v.Target, v.ReadOnly, true,
              "", false, "", diskPath⟩]) meta2 hrest

/-- C3 (amended): a malformed document and an unknown short-form volume
flag are rejected while loading; missing required VM fields (`image`,
`cpu`, `memory`) are not validated at load time — the decoded document is
returned as-is; a non-absolute volume target and a named-volume reference
without a top-level declaration are rejected by the volume-parsing step
that runs when the VM is started, before QEMU is launched. -/
theorem C3_load_time_rejection :
    (∀ e, loadComposeFile (.error e) =
      .error ("failed to parse compose file: " ++ e)) ∧
    (∀ config, loadComposeFile (.ok config) = .ok config) ∧
    (∀ src tgt fl : String, ':' ∉ src.data → ':' ∉ tgt.data →
      ':' ∉ fl.data → fl ≠ "ro" →
      parseShortForm (src ++ ":" ++ tgt ++ ":" ++ fl) =
        .error ("unknown volume flag: " ++ fl)) ∧
    (∀ (vmName : String) (vm : VM) (config : ComposeConfig)
        (composeDir volumesDir : String) (pathExists : String → Bool)
        (metadata : List (String × VolumeMetadata)),
      (∃ m ∈ vm.Volumes, strStartsWith m.Target "/" = false) →
      ∃ e, parseVMVolumes vmName vm config composeDir volumesDir pathExists
        metadata = .error e) ∧
    (∀ (volumeName : String) (config : ComposeConfig)
        (metadata : List (String × VolumeMetadata)) (volumesDir : String),
      lookupA metadata volumeName = none →
      lookupA config.Volumes volumeName = none →
      ensureVolumeExists volumeName config metadata volumesDir =
        .error ("volume not defined in compose file: " ++ volumeName)) := by
  refine ⟨fun e => rfl, fun config => rfl, parseShortForm_unknown_flag,
    ?_, ensureVolumeExists_undeclared⟩
  intro vmName vm config composeDir volumesDir pathExists metadata hex
  exact parseVMVolumesGo_bad_target vmName composeDir volumesDir config
    pathExists vm.Volumes [] metadata hex

theorem C3_load_time_rejection_witness :
    ∃ e, parseVMVolumes "vm1"
      { Image := "img", Volumes := [⟨"data", "relative/path", false, none, ""⟩] }
      { Version := "1" } "/proj" "/proj/.qemu-compose/volumes"
      (fun _ => true) [] = .error e :=
  C3_load_time_rejection.2.2.2.1 "vm1"
    { Image := "img", Volumes := [⟨"data", "relative/path", false, none, ""⟩] }
    { Version := "1" } "/proj" "/proj/.qemu-compose/volumes"
    (fun _ => true) []
    ⟨⟨"data", "relative/path", false, none, ""⟩, by decide, by decide⟩

/-! # Claim C9: interface-name length bounds -/

/-- C9: the bridge name is a prefix (the 15-byte truncation when too long)
of `"qc-<project>-<network>"` and never exceeds 15 bytes; the TAP name is
exactly `"tap-" ++ hash4 ++ "-" ++ vm6` (hash4 the first 4 hex bytes of
the MD5 of `"<project>-<vm>-<index>"`, vm6 the sanitized VM name truncated
to 6 bytes) and never exceeds 15 bytes. -/
theorem C9_interface_name_lengths :
    (∀ project network : List Nat,
      (getBridgeName project network).length ≤ 15 ∧
      getBridgeName project network <+:
        ([113, 99, 45] ++ sanitizeBytes project ++ [45] ++
          sanitizeBytes network) ∧
      (([113, 99, 45] ++ sanitizeBytes project ++ [45] ++
          sanitizeBytes network).length ≤ 15 →
        getBridgeName project network =
          [113, 99, 45] ++ sanitizeBytes project ++ [45] ++
            sanitizeBytes network)) ∧
    (∀ (project vm : List Nat) (i : Nat),
      (getTAPName project vm i).length ≤ 15 ∧
      getTAPName project vm i =
        [116, 97, 112, 45] ++
          (hexBytesOf (md5Bytes (tapIdentifier project vm i))).take 4 ++
          [45] ++ (sanitizeBytes vm).take 6) := by
  constructor
  · intro project network
    unfold getBridgeName
    by_cases h : ([113, 99, 45] ++ sanitizeBytes project ++ [45] ++
        sanitizeBytes network).length > 15
    · rw [if_pos h]
      refine ⟨?_, ?_, ?_⟩
      · rw [List.length_take]
        omega
      · exact ⟨_, List.take_append_drop 15 _⟩
      · intro hle
        omega
    · rw [if_neg h]
      exact ⟨by omega, List.prefix_rfl, fun _ => rfl⟩
  · intro project vm i
    have hhash : ((hexBytesOf (md5Bytes (tapIdentifier project vm i))).take
        4).length = 4 := by
      rw [List.length_take, hexBytesOf_length, md5Bytes_length]
      omega
    have hvm6 : ((sanitizeBytes vm).take 6).length ≤ 6 := by
      rw [List.length_take]
      omega
    have heq : getTAPName project vm i =
        [116, 97, 112, 45] ++
          (hexBytesOf (md5Bytes (tapIdentifier project vm i))).take 4 ++
          [45] ++ (sanitizeBytes vm).take 6 := by
      unfold getTAPName
      dsimp only
      by_cases h : (sanitizeBytes vm).length > 6
      · rw [if_pos h]
      · rw [if_neg h, List.take_of_length_le (Nat.le_of_not_lt h)]
    refine ⟨?_, heq⟩
    rw [heq]
    simp only [List.length_append, hhash, List.length_cons, List.length_nil]
    omega

theorem C9_interface_name_lengths_witness :
    (getBridgeName [112] [110]).length ≤ 15 ∧
    getBridgeName [112] [110] = [113, 99, 45, 112, 45, 110] :=
  ⟨(C9_interface_name_lengths.1 [112] [110]).1,
   (C9_interface_name_lengths.1 [112] [110]).2.2 (by decide)⟩

/-! # Claim C2: MAC determinism and seed/argv agreement -/

theorem generateMACAddress_length (project vmName : String) (i : Nat) :
    (generateMACAddress project vmName i).length = 17 := rfl

theorem extract_cons_ne (a : String) (l : List String)
    (h : a ≠ "-device") : extractNetMACs (a :: l) = extractNetMACs l := by
  cases l with
  | nil => rfl
  | cons b rest => simp [extractNetMACs, h]

theorem extract_device (s : String) (l : List String)
    (hs : strStartsWith s "virtio-net-pci," = true) :
    extractNetMACs ("-device" :: s :: l) =
      takeRightStr s 17 :: extractNetMACs l := by
  simp [extractNetMACs, hs]

theorem extract_cons_cons (a b : String) (l : List String)
    (hb : b ≠ "-device")
    (hbp : strStartsWith b "virtio-net-pci," = false) :
    extractNetMACs (a :: b :: l) = extractNetMACs l := by
  by_cases ha : a = "-device"
  · subst ha
    have h1 : extractNetMACs ("-device" :: b :: l) =
        extractNetMACs (b :: l) := by
      simp [extractNetMACs, hbp]
    rw [h1]
    exact extract_cons_ne b l hb
  · rw [extract_cons_ne a _ ha]
    exact extract_cons_ne b l hb

theorem head_append_of_head (s t : String) (c : Char)
    (hs : s.data.head? = some c) : (s ++ t).data.head? = some c := by
  rw [String.data_append]
  cases hd : s.data with
  | nil => rw [hd] at hs; cases hs
  | cons a as =>
    rw [hd] at hs
    exact hs

theorem ne_device_of_head (s : String) (c : Char)
    (hs : s.data.head? = some c) (hc : c ≠ '-') : s ≠ "-device" := by
  intro he
  rw [he] at hs
  have : '-' = c := by injection hs
  exact hc this.symm

theorem strStartsWith_vnp_false (s : String) (c : Char)
    (hs : s.data.head? = some c) (hc : c ≠ 'v') :
    strStartsWith s "virtio-net-pci," = false := by
  unfold strStartsWith
  cases hd : s.data with
  | nil => rw [hd] at hs; cases hs
  | cons a as =>
    rw [hd] at hs
    have hac : a = c := by injection hs
    have hav : ('v' == a) = false := by
      apply beq_eq_false_iff_ne.mpr
      rw [hac]
      exact fun hv => hc hv.symm
    rw [show ("virtio-net-pci," : String).data =
      'v' :: ("irtio-net-pci," : String).data from rfl]
    show ('v' == a && List.isPrefixOf _ as) = false
    rw [hav]
    rfl

theorem isPrefixOf_of_isPrefix :
    ∀ (l₁ l₂ : List Char), l₁ <+: l₂ → List.isPrefixOf l₁ l₂ = true := by
  intro l₁
  induction l₁ with
  | nil => intro l₂ _; simp [List.isPrefixOf_nil_left]
  | cons a as ih =>
    intro l₂ h
    rcases h with ⟨t, ht⟩
    subst ht
    show List.isPrefixOf (a :: as) (a :: (as ++ t)) = true
    simp [List.isPrefixOf, ih (as ++ t) ⟨t, rfl⟩]

theorem strStartsWith_of_data (s pre : String) (h : pre.data <+: s.data) :
    strStartsWith s pre = true := by
  unfold strStartsWith
  exact isPrefixOf_of_isPrefix _ _ h

theorem extract_volumeArgs (mounts : List VMVolumeMount) :
    ∀ (k : Nat) (rest : List String),
      extractNetMACs (volumeArgs mounts k ++ rest) = extractNetMACs rest := by
  induction mounts with
  | nil => intro k rest; rfl
  | cons m ms ih =>
    intro k rest
    unfold volumeArgs
    by_cases hb : m.IsBindMount = true
    · rw [if_pos hb]
      simp only [List.cons_append, List.singleton_append, List.append_assoc]
      have hhead : ("local,path=" ++ m.HostPath ++ ",mount_tag=mount" ++
          toString k ++ ",security_model=passthrough,id=mount" ++
          toString k).data.head? = some 'l' :=
        head_append_of_head _ _ _ (head_append_of_head _ _ _
          (head_append_of_head _ _ _ (head_append_of_head _ _ _
            (head_append_of_head _ _ _ rfl))))
      rw [extract_cons_ne _ _ (by decide),
        extract_cons_ne _ _ (ne_device_of_head _ 'l' hhead (by decide))]
      exact ih (k + 1) rest
    · rw [if_neg hb]
      simp only [List.cons_append, List.singleton_append, List.append_assoc]
      have hhead : ("file=" ++ m.DiskPath ++
          ",format=qcow2,if=virtio").data.head? = some 'f' :=
        head_append_of_head _ _ _ (head_append_of_head _ _ _ rfl)
      rw [extract_cons_ne _ _ (by decide),
        extract_cons_ne _ _ (ne_device_of_head _ 'f' hhead (by decide))]
      exact ih k rest

theorem extract_baseArgs (vmName mem cpu drv ser : String)
    (rest : List String) (hser1 : ser ≠ "-device")
    (hser2 : strStartsWith ser "virtio-net-pci," = false) :
    extractNetMACs ("qemu-system-x86_64" :: "-name" :: vmName :: "-m" ::
      mem :: "-smp" :: cpu :: "-drive" :: drv :: "-nographic" ::
      "-serial" :: ser :: rest) = extractNetMACs rest := by
  rw [extract_cons_cons _ _ _ (by decide) (by decide),
    extract_cons_cons _ _ _ (by decide) (by decide),
    extract_cons_cons _ _ _ (by decide) (by decide),
    extract_cons_cons _ _ _ (by decide) (by decide),
    extract_cons_cons _ _ _ (by decide) (by decide)]
  exact extract_cons_cons _ _ _ hser1 hser2

theorem devPayload_startsWith (project vmName : String) (i : Nat) :
    strStartsWith ("virtio-net-pci,netdev=net" ++ toString i ++ ",mac=" ++
      generateMACAddress project vmName i) "virtio-net-pci," = true := by
  apply strStartsWith_of_data
  rw [String.data_append, String.data_append, String.data_append]
  have h0 : ("virtio-net-pci," : String).data <+:
      ("virtio-net-pci,netdev=net" : String).data :=
    ⟨("netdev=net" : String).data, rfl⟩
  exact ((h0.trans (List.prefix_append _ _)).trans
    (List.prefix_append _ _)).trans (List.prefix_append _ _)

theorem devPayload_takeRight (project vmName : String) (i : Nat) :
    takeRightStr ("virtio-net-pci,netdev=net" ++ toString i ++ ",mac=" ++
      generateMACAddress project vmName i) 17 =
      generateMACAddress project vmName i :=
  takeRightStr_append
    ("virtio-net-pci,netdev=net" ++ toString i ++ ",mac=")
    (generateMACAddress project vmName i)

theorem extract_tapNetArgs (project vmName : String) :
    ∀ (nets : List String) (k : Nat) (rest : List String),
      extractNetMACs (tapNetArgs project vmName nets k ++ rest) =
        (List.range' k nets.length).map
          (fun i => generateMACAddress project vmName i) ++
          extractNetMACs rest := by
  intro nets
  induction nets with
  | nil => intro k rest; simp [tapNetArgs, List.range']
  | cons n ns ih =>
    intro k rest
    unfold tapNetArgs
    simp only [List.cons_append, List.singleton_append, List.append_assoc,
      List.nil_append]
    rw [extract_cons_ne _ _ (by decide)]
    have hheadtap : ("tap,id=net" ++ toString k ++ ",ifname=" ++
        getTAPNameStr project vmName k ++
        ",script=no,downscript=no").data.head? = some 't' :=
      head_append_of_head _ _ _ (head_append_of_head _ _ _
        (head_append_of_head _ _ _ (head_append_of_head _ _ _ rfl)))
    rw [extract_cons_ne _ _ (ne_device_of_head _ 't' hheadtap (by decide))]
    rw [extract_device _ _ (devPayload_startsWith project vmName k)]
    rw [devPayload_takeRight project vmName k, ih (k + 1) rest]
    simp [List.length_cons, List.range']

theorem extract_userNetArgs (project vmName : String) (sshPort k : Nat)
    (rest : List String) :
    extractNetMACs (userNetArgs project vmName sshPort k ++ rest) =
      generateMACAddress project vmName k :: extractNetMACs rest := by
  unfold userNetArgs
  simp only [List.cons_append, List.singleton_append, List.append_assoc,
    List.nil_append]
  rw [extract_cons_ne _ _ (by decide)]
  have hheaduser : ("user,id=net" ++ toString k ++ ",hostfwd=tcp:127.0.0.1:" ++
      toString sshPort ++ "-:22").data.head? = some 'u' :=
    head_append_of_head _ _ _ (head_append_of_head _ _ _
      (head_append_of_head _ _ _ (head_append_of_head _ _ _ rfl)))
  rw [extract_cons_ne _ _ (ne_device_of_head _ 'u' hheaduser (by decide))]
  rw [extract_device _ _ (devPayload_startsWith project vmName k)]
  rw [devPayload_takeRight project vmName k]

theorem extract_isoArgs (iso : String) :
    extractNetMACs (if iso ≠ "" then
      ["-drive", "file=" ++ iso ++ ",format=raw,if=virtio,media=cdrom"]
    else []) = [] := by
  by_cases h : iso ≠ ""
  · rw [if_pos h, extract_cons_ne _ _ (by decide)]
    rfl
  · rw [if_neg h]
    rfl

/-- C2: the MAC address is `52:54:00:` followed by the first three bytes of
the MD5 of `"<project>-<vm>-<index>"` (a pure function of those inputs);
the cloud-init seed's `ethernets` entries carry exactly the `startVM` MAC
table; and that table equals, entry for entry, the MACs of the
`-device virtio-net-pci` arguments built by `buildQEMUCommand`. -/
theorem C2_mac_agreement :
    (∀ (project vmName : String) (i : Nat),
      generateMACAddress project vmName i =
        "52:54:00:" ++
          hex2 ((md5Bytes (utf8Bytes
            (project ++ "-" ++ vmName ++ "-" ++ toString i))).getD 0 0) ++
          ":" ++ hex2 ((md5Bytes (utf8Bytes
            (project ++ "-" ++ vmName ++ "-" ++ toString i))).getD 1 0) ++
          ":" ++ hex2 ((md5Bytes (utf8Bytes
            (project ++ "-" ++ vmName ++ "-" ++ toString i))).getD 2 0)) ∧
    (∀ macAddresses : List String,
      (cloudInitEthernets macAddresses).map (fun e => e.macaddress) =
        macAddresses) ∧
    (∀ (cwd project vmName : String) (vm : VM)
        (instanceDiskPath cloudInitISOPath : String) (sshPort : Nat)
        (volumeMounts : List VMVolumeMount),
      extractNetMACs (buildQEMUCommand cwd project vmName vm
        instanceDiskPath cloudInitISOPath sshPort volumeMounts) =
        startVMMacAddresses project vmName vm sshPort) := by
  refine ⟨fun _ _ _ => rfl, ?_, ?_⟩
  · intro macs
    unfold cloudInitEthernets
    rw [List.map_map]
    exact List.enumFrom_map_snd 0 macs
  · intro cwd project vmName vm instanceDiskPath cloudInitISOPath sshPort
      volumeMounts
    unfold buildQEMUCommand
    dsimp only
    simp only [List.cons_append, List.nil_append, List.append_assoc]
    have hser : ("unix:" ++ (cwd ++ "/.qemu-compose/" ++ vmName ++
        "/console.sock") ++ ",server,nowait").data.head? = some 'u' :=
      head_append_of_head _ _ _ (head_append_of_head _ _ _ rfl)
    rw [extract_baseArgs _ _ _ _ _ _
      (ne_device_of_head _ 'u' hser (by decide))
      (strStartsWith_vnp_false _ 'u' hser (by decide))]
    rw [extract_volumeArgs volumeMounts 0]
    by_cases hn : vm.Networks.length > 0
    · rw [if_pos hn]
      by_cases hs : sshPort > 0
      · rw [if_pos hs]
        simp only [List.append_assoc]
        rw [extract_tapNetArgs, extract_userNetArgs, extract_isoArgs]
        unfold startVMMacAddresses
        rw [if_pos hs, List.range_eq_range']
      · rw [if_neg hs]
        simp only [List.append_nil]
        rw [extract_tapNetArgs, extract_isoArgs]
        unfold startVMMacAddresses
        rw [if_neg hs, List.range_eq_range']
    · rw [if_neg hn]
      have hlen : vm.Networks.length = 0 := by omega
      by_cases hs : sshPort > 0
      · rw [if_pos hs]
        rw [extract_userNetArgs, extract_isoArgs]
        unfold startVMMacAddresses
        rw [if_pos hs, hlen]
        simp
      · rw [if_neg hs]
        simp only [List.nil_append]
        rw [extract_isoArgs]
        unfold startVMMacAddresses
        rw [if_neg hs, hlen]
        simp

/-! # Claim C7: destroy preserves named volumes -/

theorem foldl_deleteTAP (f : Nat → String) :
    ∀ (l : List Nat) (st : ProjectState),
      ((l.foldl (fun s i => deleteTAPDevice (f i) s) st).files = st.files) ∧
      ((l.foldl (fun s i => deleteTAPDevice (f i) s) st).volumesJson =
        st.volumesJson) ∧
      ((l.foldl (fun s i => deleteTAPDevice (f i) s) st).networksJson =
        st.networksJson) ∧
      ((l.foldl (fun s i => deleteTAPDevice (f i) s) st).bridges =
        st.bridges) ∧
      ((l.foldl (fun s i => deleteTAPDevice (f i) s) st).natSubnets =
        st.natSubnets)
  | [], st => ⟨rfl, rfl, rfl, rfl, rfl⟩
  | i :: is, st => by
    have ih := foldl_deleteTAP f is (deleteTAPDevice (f i) st)
    simpa [deleteTAPDevice] using ih

theorem cleanupVMNetworks_preserves (project vmName : String) (vm : VM)
    (st : ProjectState) :
    ((cleanupVMNetworks project vmName vm st).files = st.files) ∧
    ((cleanupVMNetworks project vmName vm st).volumesJson = st.volumesJson) ∧
    ((cleanupVMNetworks project vmName vm st).networksJson =
      st.networksJson) ∧
    ((cleanupVMNetworks project vmName vm st).bridges = st.bridges) ∧
    ((cleanupVMNetworks project vmName vm st).natSubnets = st.natSubnets) :=
  foldl_deleteTAP (fun i => getTAPNameStr project vmName i)
    (List.range vm.Networks.length) st

theorem stopVM_preserves (project vmName : String) (vm : VM)
    (st : ProjectState) :
    ((stopVM project vmName vm st).files = st.files) ∧
    ((stopVM project vmName vm st).volumesJson = st.volumesJson) ∧
    ((stopVM project vmName vm st).networksJson = st.networksJson) ∧
    ((stopVM project vmName vm st).bridges = st.bridges) ∧
    ((stopVM project vmName vm st).natSubnets = st.natSubnets) := by
  unfold stopVM
  by_cases h : vm.Networks.length > 0
  · rw [if_pos h]
    exact cleanupVMNetworks_preserves project vmName vm st
  · rw [if_neg h]
    exact ⟨rfl, rfl, rfl, rfl, rfl⟩

theorem destroyVMStep_files (project : String) (running : String → Bool)
    (st : ProjectState) (p : String × VM) :
    (destroyVMStep project running st p).files =
      st.files.filter (fun q => q.head? ≠ some p.1) := by
  unfold destroyVMStep removeInstanceDisk
  dsimp only
  by_cases hr : running p.1 = true
  · rw [if_pos hr]
    by_cases hn : p.2.Networks.length > 0
    · rw [if_pos hn]
      rw [(cleanupVMNetworks_preserves project p.1 p.2 _).1,
        (stopVM_preserves project p.1 p.2 st).1]
    · rw [if_neg hn]
      rw [(stopVM_preserves project p.1 p.2 st).1]
  · rw [if_neg hr]
    by_cases hn : p.2.Networks.length > 0
    · rw [if_pos hn]
      rw [(cleanupVMNetworks_preserves project p.1 p.2 st).1]
    · rw [if_neg hn]

theorem destroyVMStep_others (project : String) (running : String → Bool)
    (st : ProjectState) (p : String × VM) :
    ((destroyVMStep project running st p).volumesJson = st.volumesJson) ∧
    ((destroyVMStep project running st p).networksJson = st.networksJson) ∧
    ((destroyVMStep project running st p).bridges = st.bridges) ∧
    ((destroyVMStep project running st p).natSubnets = st.natSubnets) := by
  unfold destroyVMStep removeInstanceDisk
  dsimp only
  by_cases hr : running p.1 = true
  · rw [if_pos hr]
    by_cases hn : p.2.Networks.length > 0
    · rw [if_pos hn]
      refine ⟨?_, ?_, ?_, ?_⟩
      · rw [(cleanupVMNetworks_preserves project p.1 p.2 _).2.1,
          (stopVM_preserves project p.1 p.2 st).2.1]
      · rw [(cleanupVMNetworks_preserves project p.1 p.2 _).2.2.1,
          (stopVM_preserves project p.1 p.2 st).2.2.1]
      · rw [(cleanupVMNetworks_preserves project p.1 p.2 _).2.2.2.1,
          (stopVM_preserves project p.1 p.2 st).2.2.2.1]
      · rw [(cleanupVMNetworks_preserves project p.1 p.2 _).2.2.2.2,
          (stopVM_preserves project p.1 p.2 st).2.2.2.2]
    · rw [if_neg hn]
      exact ⟨(stopVM_preserves project p.1 p.2 st).2.1,
        (stopVM_preserves project p.1 p.2 st).2.2.1,
        (stopVM_preserves project p.1 p.2 st).2.2.2.1,
        (stopVM_preserves project p.1 p.2 st).2.2.2.2⟩
  · rw [if_neg hr]
    by_cases hn : p.2.Networks.length > 0
    · rw [if_pos hn]
      exact ⟨(cleanupVMNetworks_preserves project p.1 p.2 st).2.1,
        (cleanupVMNetworks_preserves project p.1 p.2 st).2.2.1,
        (cleanupVMNetworks_preserves project p.1 p.2 st).2.2.2.1,
        (cleanupVMNetworks_preserves project p.1 p.2 st).2.2.2.2⟩
    · rw [if_neg hn]
      exact ⟨rfl, rfl, rfl, rfl⟩

theorem foldl_destroyVMStep_files (project : String)
    (running : String → Bool) :
    ∀ (vms : List (String × VM)) (st : ProjectState) (q : List String),
      q ∈ (vms.foldl (destroyVMStep project running) st).files ↔
        (q ∈ st.files ∧ ∀ pr ∈ vms, q.head? ≠ some pr.1) := by
  intro vms
  induction vms with
  | nil => intro st q; simp
  | cons p ps ih =>
    intro st q
    rw [List.foldl_cons, ih (destroyVMStep project running st p) q]
    constructor
    · rintro ⟨hq, hall⟩
      rw [destroyVMStep_files] at hq
      rcases List.mem_filter.mp hq with ⟨hq1, hq2⟩
      refine ⟨hq1, ?_⟩
      intro pr hpr
      rcases List.mem_cons.mp hpr with he | hm
      · subst he
        simpa using hq2
      · exact hall pr hm
    · rintro ⟨hq, hall⟩
      refine ⟨?_, fun pr hpr => hall pr (List.mem_cons_of_mem _ hpr)⟩
      rw [destroyVMStep_files]
      exact List.mem_filter.mpr
        ⟨hq, by simpa using hall p (List.mem_cons_self _ _)⟩

theorem foldl_destroyVMStep_others (project : String)
    (running : String → Bool) :
    ∀ (vms : List (String × VM)) (st : ProjectState),
      ((vms.foldl (destroyVMStep project running) st).volumesJson =
        st.volumesJson) ∧
      ((vms.foldl (destroyVMStep project running) st).networksJson =
        st.networksJson) ∧
      ((vms.foldl (destroyVMStep project running) st).bridges =
        st.bridges) ∧
      ((vms.foldl (destroyVMStep project running) st).natSubnets =
        st.natSubnets)
  | [], st => ⟨rfl, rfl, rfl, rfl⟩
  | p :: ps, st => by
    have ih := foldl_destroyVMStep_others project running ps
      (destroyVMStep project running st p)
    have hstep := destroyVMStep_others project running st p
    rw [List.foldl_cons]
    exact ⟨ih.1.trans hstep.1, ih.2.1.trans hstep.2.1,
      ih.2.2.1.trans hstep.2.2.1, ih.2.2.2.trans hstep.2.2.2⟩

theorem deleteBridge_components (n : String) (st : ProjectState) :
    ((deleteBridge n st).files = st.files) ∧
    ((deleteBridge n st).volumesJson = st.volumesJson) ∧
    ((deleteBridge n st).bridges = st.bridges.filter (fun b => b ≠ n)) := by
  unfold deleteBridge stopDnsmasq cleanupNAT
  dsimp only
  cases lookupA
      (st.networksJson.map (fun p =>
        if p.1 = n then (p.1, { p.2 with DnsmasqActive := false }) else p))
      n with
  | none => exact ⟨rfl, rfl, rfl⟩
  | some m => exact ⟨rfl, rfl, rfl⟩

theorem foldl_deleteBridge (names : List String) :
    ∀ st : ProjectState,
      ((names.foldl (fun s n => deleteBridge n s) st).files = st.files) ∧
      ((names.foldl (fun s n => deleteBridge n s) st).volumesJson =
        st.volumesJson) ∧
      (∀ b, b ∈ (names.foldl (fun s n => deleteBridge n s) st).bridges ↔
        (b ∈ st.bridges ∧ ∀ n ∈ names, b ≠ n)) := by
  induction names with
  | nil =>
    intro st
    refine ⟨rfl, rfl, fun b => ?_⟩
    simp
  | cons n ns ih =>
    intro st
    rw [List.foldl_cons]
    have hd := deleteBridge_components n st
    refine ⟨(ih (deleteBridge n st)).1.trans hd.1,
      (ih (deleteBridge n st)).2.1.trans hd.2.1, fun b => ?_⟩
    rw [(ih (deleteBridge n st)).2.2 b, hd.2.2]
    constructor
    · rintro ⟨hb, hall⟩
      rcases List.mem_filter.mp hb with ⟨hb1, hb2⟩
      refine ⟨hb1, ?_⟩
      intro m hm
      rcases List.mem_cons.mp hm with he | hmm2
      · subst he
        simpa using hb2
      · exact hall m hmm2
    · rintro ⟨hb, hall⟩
      refine ⟨List.mem_filter.mpr ⟨hb, ?_⟩,
        fun m hm => hall m (List.mem_cons_of_mem _ hm)⟩
      simpa using hall n (List.mem_cons_self _ _)

theorem lookupA_filter_contains (l : List (String × NetworkMetadata))
    (names : List String) (n : String) (h : names.contains n = true) :
    lookupA (l.filter (fun p => ¬ names.contains p.1)) n = none := by
  unfold lookupA
  cases hf : (l.filter (fun p => ¬ names.contains p.1)).find?
      (fun p => p.1 = n) with
  | none => rfl
  | some p =>
    exfalso
    have hp := List.find?_some hf
    have hmem := List.mem_of_find?_eq_some hf
    have hfilter := (List.mem_filter.mp hmem).2
    have hp2 : p.1 = n := by simpa using hp
    have hnc : ¬ names.contains p.1 = true := by simpa using hfilter
    rw [hp2] at hnc
    exact hnc h

theorem destroyCmd_files (project : String) (config : ComposeConfig)
    (args : List String) (running : String → Bool) (st : ProjectState)
    (vms : List (String × VM)) (hf : filterVMs config args = .ok vms)
    (q : List String) :
    q ∈ (destroyCmd project config args running st).files ↔
      (q ∈ st.files ∧ ∀ pr ∈ vms, q.head? ≠ some pr.1) := by
  unfold destroyCmd
  rw [hf]
  dsimp only
  by_cases ha : args = []
  · rw [if_pos ha]
    dsimp only
    show q ∈ ((config.Networks.map (fun p => p.1)).foldl
      (fun s n => deleteBridge n s)
      (vms.foldl (destroyVMStep project running) st)).files ↔ _
    rw [(foldl_deleteBridge (config.Networks.map (fun p => p.1))
      (vms.foldl (destroyVMStep project running) st)).1]
    exact foldl_destroyVMStep_files project running vms st q
  · rw [if_neg ha]
    exact foldl_destroyVMStep_files project running vms st q

theorem destroyCmd_volumesJson (project : String) (config : ComposeConfig)
    (args : List String) (running : String → Bool) (st : ProjectState) :
    (destroyCmd project config args running st).volumesJson =
      st.volumesJson := by
  unfold destroyCmd
  cases hf : filterVMs config args with
  | error e => rfl
  | ok vms =>
    dsimp only
    by_cases ha : args = []
    · rw [if_pos ha]
      dsimp only
      show ((config.Networks.map (fun p => p.1)).foldl
        (fun s n => deleteBridge n s)
        (vms.foldl (destroyVMStep project running) st)).volumesJson = _
      rw [(foldl_deleteBridge (config.Networks.map (fun p => p.1))
        (vms.foldl (destroyVMStep project running) st)).2.1]
      exact (foldl_destroyVMStep_others project running vms st).1
    · rw [if_neg ha]
      exact (foldl_destroyVMStep_others project running vms st).1

theorem destroyCmd_networks (project : String) (config : ComposeConfig)
    (running : String → Bool) (st : ProjectState) (n : String)
    (h : (config.Networks.map (fun p => p.1)).contains n = true) :
    lookupA (destroyCmd project config [] running st).networksJson n =
      none ∧
    n ∉ (destroyCmd project config [] running st).bridges := by
  unfold destroyCmd
  cases hf : filterVMs config [] with
  | error e => exact absurd hf (by simp [filterVMs])
  | ok vms =>
    dsimp only
    rw [if_pos rfl]
    dsimp only
    constructor
    · exact lookupA_filter_contains _ _ _ h
    · intro hb
      have hmem := ((foldl_deleteBridge (config.Networks.map (fun p => p.1))
        (vms.foldl (destroyVMStep project running) st)).2.2 n).mp hb
      have hn : n ∈ config.Networks.map (fun p => p.1) := by simpa using h
      exact hmem.2 n hn rfl

/-- C7 counterexample: in a project whose compose file declares a VM named
`volumes`, destroying that VM removes `.qemu-compose/volumes/` — including
the named-volume disk `volumes/data/volume.qcow2` — so destroy is not
guaranteed to preserve files under the volumes directory in every
reachable state. -/
theorem C7_destroy_counterexample :
    (destroyCmd "proj"
      { Version := "1", VMs := [("volumes", { Image := "img" })] }
      ["volumes"] (fun _ => false)
      { files := [["volumes", "data", "volume.qcow2"]],
        networksJson := [],
        volumesJson := [("data",
          { Name := "data", Size := "10G",
            DiskPath := "/w/volumes/data/volume.qcow2", Created := "" })],
        bridges := [], taps := [], natSubnets := [] }).files = [] := by
  decide

/-- C7 (amended): destroy never touches `volumes.json`; it removes exactly
the workspace directories of the selected VMs (all other files survive),
and — provided no selected VM is named `volumes` — every file under the
volumes directory survives; when invoked with no VM arguments it
additionally erases every declared network from `networks.json` and
deletes its bridge. -/
theorem C7_destroy_scope :
    (∀ project config args running st,
      (destroyCmd project config args running st).volumesJson =
        st.volumesJson) ∧
    (∀ project config args running st vms q,
      filterVMs config args = .ok vms →
      (q ∈ (destroyCmd project config args running st).files ↔
        (q ∈ st.files ∧ ∀ pr ∈ vms, q.head? ≠ some pr.1))) ∧
    (∀ project config args running st vms q,
      filterVMs config args = .ok vms →
      (∀ pr ∈ vms, pr.1 ≠ "volumes") →
      q ∈ st.files → q.head? = some "volumes" →
      q ∈ (destroyCmd project config args running st).files) ∧
    (∀ project config running st n,
      (config.Networks.map (fun p => p.1)).contains n = true →
      lookupA (destroyCmd project config [] running st).networksJson n =
        none ∧
      n ∉ (destroyCmd project config [] running st).bridges) := by
  refine ⟨destroyCmd_volumesJson, ?_, ?_, destroyCmd_networks⟩
  · intro project config args running st vms q hf
    exact destroyCmd_files project config args running st vms hf q
  · intro project config args running st vms q hf hnv hq hhead
    refine (destroyCmd_files project config args running st vms hf q).mpr
      ⟨hq, ?_⟩
    intro pr hpr heq
    rw [hhead] at heq
    have : "volumes" = pr.1 := by injection heq
    exact hnv pr hpr this.symm

theorem C7_destroy_scope_witness :
    ["volumes", "data", "volume.qcow2"] ∈
      (destroyCmd "proj"
        { Version := "1", VMs := [("web", { Image := "img" })] }
        ["web"] (fun _ => false)
        { files := [["volumes", "data", "volume.qcow2"],
            ["web", "disk.qcow2"]],
          networksJson := [], volumesJson := [], bridges := [], taps := [],
          natSubnets := [] }).files :=
  C7_destroy_scope.2.2.1 "proj"
    { Version := "1", VMs := [("web", { Image := "img" })] }
    ["web"] (fun _ => false)
    { files := [["volumes", "data", "volume.qcow2"],
        ["web", "disk.qcow2"]],
      networksJson := [], volumesJson := [], bridges := [], taps := [],
      natSubnets := [] }
    [("web", { Image := "img" })] ["volumes", "data", "volume.qcow2"]
    rfl
    (fun pr hpr => by
      have hpr2 : pr = ("web", { Image := "img" }) := by simpa using hpr
      subst hpr2
      decide)
    (by decide) rfl

end QemuCompose
